import Mathlib

/-!
# reflecthelper: dynamic value coercion and structural iteration

A shallow embedding of the Go package `reflecthelper` (`assignment.go`,
`kind.go`, `type.go`, `value.go`) together with the fragment of Go's package
`reflect` that the package calls.

Modelling conventions.

* A `reflect.Value` is a type descriptor, the data it denotes and one flag
  (`CanSet`).  Mutation through a handle is made explicit: an operation that
  writes returns the new handle.  The heap is tree shaped (a pointer owns its
  pointee); all reads of a source happen before the single write to the
  destination, so aliasing between the two is not observable here.
* Type identity is structural: named types, method sets, struct field names and
  function signatures are not represented in `reflect.Typ`, whose types are
  finite trees.  The loop of `GetChildElemType` is embedded over any family of
  types with the methods Kind and Elem (`Types`), so that a named type that is
  its own element type (`type T []T`) is covered there.  Handles obtained
  through an unexported struct field (flagRO) are not represented either.
* A Go panic is an `Except.error` carrying the panic payload.
* Machine integers are `Int`/`Nat` with explicit wrap-around.
* Floating point values are carried as IEEE bit patterns; the two float32
  primitives are parameters of the environment `Env`.
-/

namespace reflect

/-- The `reflect.Kind` enumeration, in the order of the Go declaration. -/
inductive Kind where
  | Invalid | Bool
  | Int | Int8 | Int16 | Int32 | Int64
  | Uint | Uint8 | Uint16 | Uint32 | Uint64 | Uintptr
  | Float32 | Float64 | Complex64 | Complex128
  | Array | Chan | Func | Interface | Map | Ptr | Slice | String | Struct
  | UnsafePointer
  deriving DecidableEq, Repr

/-- The kinds whose types carry no component type. -/
inductive Basic where
  | Bool
  | Int | Int8 | Int16 | Int32 | Int64
  | Uint | Uint8 | Uint16 | Uint32 | Uint64 | Uintptr
  | Float32 | Float64 | Complex64 | Complex128
  | String | UnsafePointer
  deriving DecidableEq, Repr

/-- The kind of a basic type. -/
def Basic.Kind : Basic → Kind
  | .Bool => .Bool
  | .Int => .Int | .Int8 => .Int8 | .Int16 => .Int16 | .Int32 => .Int32 | .Int64 => .Int64
  | .Uint => .Uint | .Uint8 => .Uint8 | .Uint16 => .Uint16 | .Uint32 => .Uint32
  | .Uint64 => .Uint64 | .Uintptr => .Uintptr
  | .Float32 => .Float32 | .Float64 => .Float64
  | .Complex64 => .Complex64 | .Complex128 => .Complex128
  | .String => .String | .UnsafePointer => .UnsafePointer

/-- A `reflect.Type` (non-nil), up to structural identity. -/
inductive Typ where
  | basic (b : Basic)
  | array (len : Nat) (elem : Typ)
  | chan (elem : Typ)
  | func
  | iface
  | map (key : Typ) (elem : Typ)
  | ptr (elem : Typ)
  | slice (elem : Typ)
  | struct (fields : List Typ)
  deriving Repr

/-- The data a handle denotes. -/
inductive Data where
  | nil
  | bool (b : Bool)
  | int (v : Int)
  | uint (v : Nat)
  | float (bits : Nat)
  | complex (re : Nat) (im : Nat)
  | str (bytes : List Nat)
  | seq (elems : List Data)
  | ptr (pointee : Data)
  | iface (dyn : Typ) (val : Data)
  | struct (fields : List Data)
  | ref (id : Nat)
  deriving Repr

mutual
/-- Structural equality of types, as a boolean. -/
def Typ.beq : Typ → Typ → Bool
  | .basic a, .basic b => decide (a = b)
  | .array n a, .array m b => decide (n = m) && Typ.beq a b
  | .chan a, .chan b => Typ.beq a b
  | .func, .func => true
  | .iface, .iface => true
  | .map k a, .map l b => Typ.beq k l && Typ.beq a b
  | .ptr a, .ptr b => Typ.beq a b
  | .slice a, .slice b => Typ.beq a b
  | .struct fs, .struct gs => Typ.beqList fs gs
  | _, _ => false
/-- Structural equality of field lists. -/
def Typ.beqList : List Typ → List Typ → Bool
  | [], [] => true
  | a :: as, b :: bs => Typ.beq a b && Typ.beqList as bs
  | _, _ => false
end

/-- The method `Type.Kind`. -/
def Typ.Kind : Typ → Kind
  | .basic b => b.Kind
  | .array _ _ => .Array
  | .chan _ => .Chan
  | .func => .Func
  | .iface => .Interface
  | .map _ _ => .Map
  | .ptr _ => .Ptr
  | .slice _ => .Slice
  | .struct _ => .Struct

mutual
/-- The zero value of a type. -/
def zero : Typ → Data
  | .basic .Bool => .bool false
  | .basic .Int => .int 0
  | .basic .Int8 => .int 0
  | .basic .Int16 => .int 0
  | .basic .Int32 => .int 0
  | .basic .Int64 => .int 0
  | .basic .Uint => .uint 0
  | .basic .Uint8 => .uint 0
  | .basic .Uint16 => .uint 0
  | .basic .Uint32 => .uint 0
  | .basic .Uint64 => .uint 0
  | .basic .Uintptr => .uint 0
  | .basic .Float32 => .float 0
  | .basic .Float64 => .float 0
  | .basic .Complex64 => .complex 0 0
  | .basic .Complex128 => .complex 0 0
  | .basic .String => .str []
  | .basic .UnsafePointer => .nil
  | .array n e => .seq (List.replicate n (zero e))
  | .chan _ => .nil
  | .func => .nil
  | .iface => .nil
  | .map _ _ => .nil
  | .ptr _ => .nil
  | .slice _ => .seq []
  | .struct fs => .struct (zeroList fs)
/-- The zero values of a list of field types. -/
def zeroList : List Typ → List Data
  | [] => []
  | t :: ts => zero t :: zeroList ts
end

/-- Panic payloads raised by package reflect.  Only `valueError` (a
`*reflect.ValueError`) and `runtimeError` are Go error values; the others are
strings: "reflect: M using unaddressable value", "M: T1 != T2",
"M: value of type X is not assignable to type T", and fixed texts. -/
inductive Panic where
  | valueError (method : String) (kind : Kind)
  | runtimeError (msg : String)
  | unaddressable (method : String)
  | typesMismatch (method : String) (t1 : Typ) (t2 : Typ)
  | notAssignable (method : String) (x : Typ) (t : Typ)
  | text (msg : String)
  deriving Repr

/-- A `reflect.Value`: `typ = none` is the zero Value (`IsValid` false). -/
structure Value where
  typ : Option Typ
  data : Data
  canSet : Bool
  deriving Repr

/-- The zero `reflect.Value`. -/
def Value.zeroValue : Value := ⟨none, .nil, false⟩

/-- The method `Value.IsValid`. -/
def Value.IsValid (v : Value) : Bool := v.typ.isSome

/-- The method `Value.CanSet`. -/
def Value.CanSet (v : Value) : Bool := v.canSet

/-- The method `Value.Kind`; `Invalid` for the zero Value. -/
def Value.Kind (v : Value) : reflect.Kind :=
  match v.typ with
  | none => .Invalid
  | some t => t.Kind

/-- The method `Value.Type`; panics on the zero Value. -/
def Value.Type (v : Value) : Except Panic Typ :=
  match v.typ with
  | none => .error (.valueError "reflect.Value.Type" .Invalid)
  | some t => .ok t

/-- The method `Type.Elem`; panics unless the kind is Array, Chan, Map, Ptr or Slice. -/
def Typ.Elem : Typ → Except Panic Typ
  | .array _ e => .ok e
  | .chan e => .ok e
  | .map _ e => .ok e
  | .ptr e => .ok e
  | .slice e => .ok e
  | _ => .error (.text "reflect: Elem of invalid type")

/-- The elements held by an array or slice handle. -/
def Value.elems (v : Value) : List Data :=
  match v.data with
  | .seq xs => xs
  | _ => []

/-- The method `Value.Elem`: the pointee of a pointer (settable), the dynamic
value of an interface (not settable), the zero Value for nil. -/
def Value.Elem (v : Value) : Except Panic Value :=
  match v.typ, v.data with
  | some .iface, .iface t d => .ok ⟨some t, d, false⟩
  | some .iface, _ => .ok Value.zeroValue
  | some (.ptr e), .ptr d => .ok ⟨some e, d, true⟩
  | some (.ptr _), _ => .ok Value.zeroValue
  | _, _ => .error (.valueError "reflect.Value.Elem" v.Kind)

/-- The method `Value.Len` for Array, Slice and String (lengths of channels and
maps are not represented; the package never asks for them). -/
def Value.Len (v : Value) : Except Panic Nat :=
  match v.typ, v.data with
  | some (.array n _), _ => .ok n
  | some (.slice _), _ => .ok v.elems.length
  | some (.basic .String), .str bs => .ok bs.length
  | some (.basic .String), _ => .ok 0
  | _, _ => .error (.valueError "reflect.Value.Len" v.Kind)

/-- The method `Value.Index`. -/
def Value.Index (v : Value) (i : Nat) : Except Panic Value :=
  match v.typ, v.data with
  | some (.array n e), _ =>
    if i < n then .ok ⟨some e, v.elems.getD i (zero e), v.canSet⟩
    else .error (.text "reflect: array index out of range")
  | some (.slice e), _ =>
    if i < v.elems.length then .ok ⟨some e, v.elems.getD i (zero e), true⟩
    else .error (.text "reflect: slice index out of range")
  | some (.basic .String), .str bs =>
    if i < bs.length then .ok ⟨some (.basic .Uint8), .uint (bs.getD i 0), false⟩
    else .error (.text "reflect: string index out of range")
  | _, _ => .error (.valueError "reflect.Value.Index" v.Kind)

/-- The method `Value.Set`: `mustBeAssignable`, then `x.mustBeExported`, then
`assignTo` (identical types, or an interface target). -/
def Value.Set (v x : Value) : Except Panic Value :=
  match v.typ with
  | none => .error (.valueError "reflect.Value.Set" .Invalid)
  | some t =>
    if !v.canSet then .error (.unaddressable "reflect.Value.Set")
    else
      match x.typ with
      | none => .error (.valueError "reflect.Value.Set" .Invalid)
      | some tx =>
        if tx.beq t then .ok { v with data := x.data }
        else if t.Kind = .Interface then .ok { v with data := .iface tx x.data }
        else .error (.notAssignable "reflect.Set" tx t)

/-- The function `reflect.New`: a pointer to a fresh zero value. -/
def New (typ : Option Typ) : Except Panic Value :=
  match typ with
  | none => .error (.text "reflect: New(nil)")
  | some t => .ok ⟨some (.ptr t), .ptr (zero t), false⟩

/-- The function `reflect.ArrayOf`. -/
def ArrayOf (length : Nat) (elem : Option Typ) : Except Panic Typ :=
  match elem with
  | none => .error (.runtimeError "invalid memory address or nil pointer dereference")
  | some e => .ok (.array length e)

/-- The function `reflect.MakeSlice`; the result is not addressable. -/
def MakeSlice (typ : Typ) (len cap : Nat) : Except Panic Value :=
  match typ with
  | .slice e =>
    if len > cap then .error (.text "reflect.MakeSlice: len > cap")
    else .ok ⟨some (.slice e), .seq (List.replicate len (zero e)), false⟩
  | _ => .error (.text "reflect.MakeSlice of non-slice type")

/-- The function `reflect.AppendSlice`: both arguments must be slices of one
type; the result is not addressable. -/
def AppendSlice (s t : Value) : Except Panic Value :=
  match s.typ, t.typ with
  | some (.slice es), some (.slice et) =>
    if es.beq et then .ok ⟨some (.slice es), .seq (s.elems ++ t.elems), false⟩
    else .error (.typesMismatch "reflect.AppendSlice" (.slice es) (.slice et))
  | some (.slice _), _ => .error (.valueError "reflect.AppendSlice" t.Kind)
  | _, _ => .error (.valueError "reflect.AppendSlice" s.Kind)

/-- The element copy of `reflect.Copy`: the first `min (len dst) (len src)`
elements of `dst` are overwritten. -/
def copyElems (dst : Value) (dlen : Nat) (src : List Data) : Value :=
  let n := min dlen src.length
  { dst with data := .seq (src.take n ++ dst.elems.drop n) }

/-- The source side of `reflect.Copy`, for a destination of element type `de`. -/
def copyFrom (dst : Value) (dlen : Nat) (de : Typ) (src : Value) : Except Panic Value :=
  match src.typ, src.data with
  | some (.array n se), _ =>
    if de.beq se then .ok (copyElems dst dlen (src.elems.take n))
    else .error (.typesMismatch "reflect.Copy" de se)
  | some (.slice se), _ =>
    if de.beq se then .ok (copyElems dst dlen src.elems)
    else .error (.typesMismatch "reflect.Copy" de se)
  | some (.basic .String), .str bs =>
    if de.Kind = .Uint8 then .ok (copyElems dst dlen (bs.map Data.uint))
    else .error (.valueError "reflect.Copy" .String)
  | some (.basic .String), _ =>
    if de.Kind = .Uint8 then .ok (copyElems dst dlen [])
    else .error (.valueError "reflect.Copy" .String)
  | _, _ => .error (.valueError "reflect.Copy" src.Kind)

/-- The function `reflect.Copy` (the count it returns is dropped: the package
ignores it). -/
def Copy (dst src : Value) : Except Panic Value :=
  match dst.typ with
  | some (.array n de) =>
    if !dst.canSet then .error (.unaddressable "reflect.Copy")
    else copyFrom dst n de src
  | some (.slice de) => copyFrom dst dst.elems.length de src
  | _ => .error (.valueError "reflect.Copy" dst.Kind)

/-- Two's complement wrap-around of an integer to `w` bits, signed. -/
def wrapInt (w : Nat) (x : Int) : Int := (x + 2 ^ (w - 1)) % 2 ^ w - 2 ^ (w - 1)

/-- Wrap-around of a natural number to `w` bits, unsigned. -/
def wrapUint (w : Nat) (x : Nat) : Nat := x % 2 ^ w

/-- The size in bits of a signed integer kind (`int` is the word size). -/
def intBits (is64 : Bool) : reflect.Kind → Option Nat
  | .Int => some (if is64 then 64 else 32)
  | .Int8 => some 8
  | .Int16 => some 16
  | .Int32 => some 32
  | .Int64 => some 64
  | _ => none

/-- The size in bits of an unsigned integer kind (`uint`, `uintptr`: word size). -/
def uintBits (is64 : Bool) : reflect.Kind → Option Nat
  | .Uint => some (if is64 then 64 else 32)
  | .Uintptr => some (if is64 then 64 else 32)
  | .Uint8 => some 8
  | .Uint16 => some 16
  | .Uint32 => some 32
  | .Uint64 => some 64
  | _ => none

/-- The method `Value.OverflowInt`: `trunc := (x << (64 - bitSize)) >> (64 - bitSize)`
on int64 (shift left wraps, shift right is arithmetic), result `x != trunc`. -/
def Value.OverflowInt (is64 : Bool) (v : Value) (x : Int) : Except Panic Bool :=
  match intBits is64 v.Kind with
  | some bitSize =>
    let trunc := wrapInt 64 (x * 2 ^ (64 - bitSize)) / 2 ^ (64 - bitSize)
    .ok (decide (x ≠ trunc))
  | none => .error (.valueError "reflect.Value.OverflowInt" v.Kind)

/-- The method `Value.OverflowUint`, the same computation on uint64. -/
def Value.OverflowUint (is64 : Bool) (v : Value) (x : Nat) : Except Panic Bool :=
  match uintBits is64 v.Kind with
  | some bitSize =>
    let trunc := wrapUint 64 (x * 2 ^ (64 - bitSize)) / 2 ^ (64 - bitSize)
    .ok (decide (x ≠ trunc))
  | none => .error (.valueError "reflect.Value.OverflowUint" v.Kind)

/-- The check `mustBeAssignable` followed by a kind test, shared by the typed setters. -/
def Value.setter (method : String) (v : Value) (ok : Bool) (d : Data) : Except Panic Value :=
  if !v.IsValid then .error (.valueError method .Invalid)
  else if !v.canSet then .error (.unaddressable method)
  else if ok then .ok { v with data := d }
  else .error (.valueError method v.Kind)

/-- The method `Value.SetBool`. -/
def Value.SetBool (v : Value) (x : Bool) : Except Panic Value :=
  v.setter "reflect.Value.SetBool" (decide (v.Kind = .Bool)) (.bool x)

/-- The method `Value.SetInt`: the value is converted to the destination width. -/
def Value.SetInt (is64 : Bool) (v : Value) (x : Int) : Except Panic Value :=
  match intBits is64 v.Kind with
  | some w => v.setter "reflect.Value.SetInt" true (.int (wrapInt w x))
  | none => v.setter "reflect.Value.SetInt" false .nil

/-- The method `Value.SetUint`: the value is converted to the destination width. -/
def Value.SetUint (is64 : Bool) (v : Value) (x : Nat) : Except Panic Value :=
  match uintBits is64 v.Kind with
  | some w => v.setter "reflect.Value.SetUint" true (.uint (wrapUint w x))
  | none => v.setter "reflect.Value.SetUint" false .nil

/-- The method `Value.SetString`. -/
def Value.SetString (v : Value) (x : List Nat) : Except Panic Value :=
  v.setter "reflect.Value.SetString" (decide (v.Kind = .String)) (.str x)

/-- The method `Value.OverflowFloat`; `ovf32` is the runtime test that a
float64 does not fit a float32. -/
def Value.OverflowFloat (ovf32 : Nat → Bool) (v : Value) (x : Nat) : Except Panic Bool :=
  match v.Kind with
  | .Float32 => .ok (ovf32 x)
  | .Float64 => .ok false
  | k => .error (.valueError "reflect.Value.OverflowFloat" k)

/-- The method `Value.OverflowComplex`. -/
def Value.OverflowComplex (ovf32 : Nat → Bool) (v : Value) (x : Nat × Nat) : Except Panic Bool :=
  match v.Kind with
  | .Complex64 => .ok (ovf32 x.1 || ovf32 x.2)
  | .Complex128 => .ok false
  | k => .error (.valueError "reflect.Value.OverflowComplex" k)

/-- The method `Value.SetFloat`; `round32` is the conversion to float32. -/
def Value.SetFloat (round32 : Nat → Nat) (v : Value) (x : Nat) : Except Panic Value :=
  match v.Kind with
  | .Float32 => v.setter "reflect.Value.SetFloat" true (.float (round32 x))
  | .Float64 => v.setter "reflect.Value.SetFloat" true (.float x)
  | _ => v.setter "reflect.Value.SetFloat" false .nil

/-- The method `Value.SetComplex`. -/
def Value.SetComplex (round32 : Nat → Nat) (v : Value) (x : Nat × Nat) : Except Panic Value :=
  match v.Kind with
  | .Complex64 => v.setter "reflect.Value.SetComplex" true (.complex (round32 x.1) (round32 x.2))
  | .Complex128 => v.setter "reflect.Value.SetComplex" true (.complex x.1 x.2)
  | _ => v.setter "reflect.Value.SetComplex" false .nil

end reflect

namespace reflecthelper

open reflect

/-! ## kind.go -/

/-- GetKind gets the kind of the reflect.Value. -/
def GetKind (val : Value) : Kind :=
  if !val.IsValid then .Invalid
  else val.Kind

/-- IsKindValueElemable checks the kind of reflect.Value that can call Elem method. -/
def IsKindValueElemable (kind : Kind) : Bool :=
  kind = .Ptr || kind = .Interface

/-- IsKindTypeElemable checks the kind of reflect.Type that can call Elem method. -/
def IsKindTypeElemable (kind : Kind) : Bool :=
  kind = .Array ||
    kind = .Chan ||
    kind = .Map ||
    kind = .Ptr ||
    kind = .Slice

/-- GetElemKind gets the elem kind from ptr type. -/
def GetElemKind (val : Value) : Except Panic Kind :=
  if !val.IsValid then .ok .Invalid
  else
    let tempRes := GetKind val
    if IsKindTypeElemable tempRes then
      match val.Type with
      | .error p => .error p
      | .ok t =>
        match t.Elem with
        | .error p => .error p
        | .ok e => .ok e.Kind
    else if IsKindValueElemable tempRes then
      match val.Elem with
      | .error p => .error p
      | .ok e => .ok e.Kind
    else .ok .Invalid

/-- GetChildElemKind returns the child elems' (root child) kind of the val. -/
def GetChildElemKind (val : Value) : Except Panic Kind :=
  if !val.IsValid then .ok .Invalid
  else
    let tempRes := GetKind val
    if IsKindTypeElemable tempRes then
      match val.Type with
      | .error p => .error p
      | .ok t =>
        match t.Elem with
        | .error p => .error p
        | .ok elemType => .ok elemType.Kind
    else .ok .Invalid

/-! ## type.go -/

/-- IsTypeValueElemable checks if the type of the reflect.Value can call Elem. -/
def IsTypeValueElemable (val : Value) : Bool :=
  IsKindTypeElemable (GetKind val)

/-- What type.go asks of a `reflect.Type`: the methods Kind and Elem, over the
types `τ` of a program.  A named type can be its own element type
(`type T []T`, `type P *P`, `type Tree map[string]Tree`). -/
structure Types (τ : Type) where
  Kind : τ → reflect.Kind
  Elem : τ → Except Panic τ

/-- What `GetChildElemType` asks of a `reflect.Value`: the methods IsValid and
Type. -/
structure Handle (τ : Type) where
  IsValid : Bool
  Typ : Except Panic τ

/-- The types that are finite trees, with the methods of `reflect.Typ`. -/
def treeTypes : Types Typ := ⟨Typ.Kind, Typ.Elem⟩

/-- A named type of kind `k` that is its own element type, such as
`type T []T` for the Slice kind: one type, `()`, and `Elem` gives it back. -/
def selfElem (k : Kind) : Types Unit := ⟨fun _ => k, fun t => .ok t⟩

/-- IsTypeElemable checks whether the typ of reflect.Type can call Elem method
(over any family of types). -/
def Types.IsTypeElemable {τ : Type} (U : Types τ) (typ : Option τ) : Bool :=
  match typ with
  | none => false
  | some t => IsKindTypeElemable (U.Kind t)

/-- IsTypeElemable on the types that are finite trees. -/
def IsTypeElemable (typ : Option Typ) : Bool :=
  treeTypes.IsTypeElemable typ

/-- GetElemType returns the elem type of a val of reflect.Value. -/
def GetElemType (val : Value) : Except Panic (Option Typ) :=
  if !val.IsValid then .ok none
  else
    match val.Type with
    | .error p => .error p
    | .ok typ =>
      if IsTypeValueElemable val then
        match typ.Elem with
        | .error p => .error p
        | .ok e => .ok (some e)
      else .ok (some typ)

/-- The number of element-type steps that can be taken from a type: a bound
on the rounds of the loop of `GetChildElemType`. -/
def layers : Typ → Nat
  | .array _ e => layers e + 1
  | .chan e => layers e + 1
  | .map _ e => layers e + 1
  | .ptr e => layers e + 1
  | .slice e => layers e + 1
  | _ => 0

/-- The loop `for IsTypeElemable(typ) { typ = typ.Elem() }` of
`GetChildElemType`.  The first argument bounds the number of times the condition
is evaluated; `none` means the bound was hit. -/
def Types.childElemLoop {τ : Type} (U : Types τ) : Nat → τ → Option (Except Panic τ)
  | 0, _ => none
  | rounds + 1, typ =>
    if U.IsTypeElemable (some typ) then
      match U.Elem typ with
      | .error p => some (.error p)
      | .ok e => Types.childElemLoop U rounds e
    else some (.ok typ)

/-- GetChildElemType returns the child elems' (root child) type of the val of
reflect.Value; the nil type for a handle that is not valid.  Over any family of
types: `none` means the loop did not end within `rounds`. -/
def Types.GetChildElemType {τ : Type} (U : Types τ) (rounds : Nat) (val : Handle τ) :
    Option (Except Panic (Option τ)) :=
  if !val.IsValid then some (.ok none)
  else
    match val.Typ with
    | .error p => some (.error p)
    | .ok typ =>
      match U.childElemLoop rounds typ with
      | none => none
      | some (.error p) => some (.error p)
      | some (.ok t) => some (.ok (some t))

/-- GetChildElemType on a `reflect.Value` whose type is a finite tree. -/
def GetChildElemType (rounds : Nat) (val : Value) : Option (Except Panic (Option Typ)) :=
  treeTypes.GetChildElemType rounds ⟨val.IsValid, val.Type⟩

/-! ## Errors and collaborators of assignment.go -/

/-- The errors the package returns.  `PanicError p` is a recovered panic whose
payload is itself an error; `Errorf p` is `fmt.Errorf("%v", p)` for any other
payload; `Extraction` is whatever an extraction helper reports. -/
inductive Err where
  | ErrInvalidValue
  | ErrAssignerCantSet
  | ErrOverflow
  | ErrOverflowedLength
  | ErrUnimplementedAssign
  | Extraction (code : Nat)
  | PanicError (p : Panic)
  | Errorf (p : Panic)
  deriving Repr

/-- The collaborators of `tryAssign` that are not part of assignment.go: the
word size of the target, the extraction helpers (`ExtractBool`, `ExtractInt`,
`ExtractUint`, `ExtractFloat`, `ExtractComplex`, `ExtractString`) and the two
float32 primitives of the runtime. -/
structure Env where
  is64 : Bool
  ExtractBool : Value → Except Err Bool
  ExtractInt : Value → Except Err Int
  ExtractUint : Value → Except Err Nat
  ExtractFloat : Value → Except Err Nat
  ExtractComplex : Value → Except Err (Nat × Nat)
  ExtractString : Value → Except Err (List Nat)
  ovf32 : Nat → Bool
  round32 : Nat → Nat

/-- The integer held by a handle of a signed or unsigned integer kind. -/
def intValue (val : Value) : Option Int :=
  match (intBits true val.Kind).isSome, (uintBits true val.Kind).isSome, val.data with
  | true, _, .int v => some v
  | _, true, .uint v => some (v : Int)
  | _, _, _ => none

/-- Modelled from the spec: ExtractBool is not under src.  "Extract a boolean
from source"; a source that is not a boolean is an extraction failure. -/
def ExtractBool (val : Value) : Except Err Bool :=
  match val.Kind, val.data with
  | .Bool, .bool b => .ok b
  | _, _ => .error (.Extraction 0)

/-- Modelled from the spec: ExtractInt is not under src.  "Extract a 64-bit
signed integer from source"; "coerce succeeds and the stored result equals v iff
v is representable, otherwise it fails with Overflow". -/
def ExtractInt (val : Value) : Except Err Int :=
  match intValue val with
  | some v => if -(2 : Int) ^ 63 ≤ v ∧ v < 2 ^ 63 then .ok v else .error .ErrOverflow
  | none => .error (.Extraction 0)

/-- Modelled from the spec: ExtractUint is not under src.  "Symmetric to
signed, using a 64-bit unsigned extraction"; "assigning -1 into an unsigned
destination fails (representability, not just magnitude)" with Overflow. -/
def ExtractUint (val : Value) : Except Err Nat :=
  match intValue val with
  | some v => if 0 ≤ v ∧ v < 2 ^ 64 then .ok v.toNat else .error .ErrOverflow
  | none => .error (.Extraction 0)

/-- Modelled from the spec: ExtractFloat is not under src.  "Extract a 64-bit
float"; a source that is not a float is an extraction failure. -/
def ExtractFloat (val : Value) : Except Err Nat :=
  match val.Kind, val.data with
  | .Float32, .float x => .ok x
  | .Float64, .float x => .ok x
  | _, _ => .error (.Extraction 0)

/-- Modelled from the spec: ExtractComplex is not under src.  "Extract a
128-bit complex"; a source that is not complex is an extraction failure. -/
def ExtractComplex (val : Value) : Except Err (Nat × Nat) :=
  match val.Kind, val.data with
  | .Complex64, .complex re im => .ok (re, im)
  | .Complex128, .complex re im => .ok (re, im)
  | _, _ => .error (.Extraction 0)

/-- Modelled from the spec: ExtractString is not under src.  "Extract a string
from source"; a source that is not a string is an extraction failure. -/
def ExtractString (val : Value) : Except Err (List Nat) :=
  match val.Kind, val.data with
  | .String, .str bs => .ok bs
  | _, _ => .error (.Extraction 0)

/-- The environment made of the extraction helpers as modelled above, for a
given word size and float32 primitives. -/
def specEnv (is64 : Bool) (ovf32 : Nat → Bool) (round32 : Nat → Nat) : Env :=
  ⟨is64, ExtractBool, ExtractInt, ExtractUint, ExtractFloat, ExtractComplex, ExtractString,
    ovf32, round32⟩

/-- A 64-bit target; no float32 is involved where it is used. -/
def env64 : Env := specEnv true (fun _ => false) id

/-- Modelled from the spec: GetChildElem is not under src.  "Unwrap to child
element strips exactly one layer (pointer or interface) if present"; an absent
handle is handed back as it is. -/
def GetChildElem (val : Value) : Value :=
  if !val.IsValid then val
  else if IsKindValueElemable (GetKind val) then
    match val.Elem with
    | .ok res => res
    | .error _ => val
  else val

/-- Modelled from the spec: getErrIsValid is not under src.  "A required value
handle is absent": the error for a handle that is not valid, nil otherwise. -/
def getErrIsValid (val : Value) : Option Err :=
  if !val.IsValid then some .ErrInvalidValue else none

/-- Modelled from the spec: getErrOverflow is not under src.  "Numeric value
does not fit destination's declared width/signedness." -/
def getErrOverflow (_assigner : Value) : Err := .ErrOverflow

/-- Modelled from the spec: getErrOverflowedLength is not under src.  "Source
composite longer than a fixed-size (non-growable) destination." -/
def getErrOverflowedLength (_assigner _val : Value) : Err := .ErrOverflowedLength

/-- Modelled from the spec: getErrUnimplementedAssign is not under src.  "The
destination/source kind combination has no defined conversion." -/
def getErrUnimplementedAssign (_assigner _val : Value) : Err := .ErrUnimplementedAssign

/-- Whether a panic payload is a Go error value. -/
def isError : Panic → Bool
  | .valueError _ _ => true
  | .runtimeError _ => true
  | _ => false

/-- The deferred function of `tryAssign`: `case error: err = val`,
`default: err = fmt.Errorf("%v", val)`. -/
def recovered (rec : Panic) : Err :=
  if isError rec then .PanicError rec else .Errorf rec

/-- What a call leaves behind: the error it returns and the data the
destination (the unwrapped assigner) holds afterwards. -/
structure Outcome where
  err : Option Err
  dst : Data
  deriving Repr

/-- How the body of `tryAssign` ends: a return or a panic, each with the
destination handle as it is at that moment. -/
inductive Flow where
  | ret (err : Option Err) (assigner : Value)
  | panic (p : Panic) (assigner : Value)

/-- How a loop over the source ends early: a returned error, a panic, or the
recursion budget of the model running out. -/
inductive Stop where
  | ret (err : Err)
  | panic (p : Panic)
  | exhausted

/-- The type of `AssignReflect` as its body and helpers call it. -/
abbrev Callee := Value → Value → Option Outcome

/-- A panic inside a computation that does not touch the destination. -/
def liftPanic {α : Type} (x : Except Panic α) : Except Stop α :=
  match x with
  | .ok a => .ok a
  | .error p => .error (.panic p)

/-- The last step of a branch: a write to the destination that may panic. -/
def Flow.ofSet (assigner : Value) (r : Except Panic Value) : Flow :=
  match r with
  | .ok a => .ret none a
  | .error p => .panic p assigner

/-- A flow keeps the destination handle `a`: it is a return without error, or
the handle it carries is `a` as it was. -/
def Flow.keeps (a : Value) : Flow → Prop
  | .ret (some _) a2 => a2 = a
  | .ret none _ => True
  | .panic _ a2 => a2 = a

/-- Explicit state passing: the handle `v` once its child element (the handle
`GetChildElem v`) holds `d`. -/
def storeChildElem (v : Value) (d : Data) : Value :=
  match v.typ, v.data with
  | some (.ptr _), .ptr _ => { v with data := .ptr d }
  | some (.ptr _), _ => v
  | some .iface, _ => v
  | _, _ => { v with data := d }

/-! ## assignment.go -/

/-- The function `checkAssigner`. -/
def checkAssigner (assigner : Value) : Option Err :=
  match getErrIsValid assigner with
  | some err => some err
  | none => if !assigner.CanSet then some .ErrAssignerCantSet else none

/-- The function `checkOverLength`. -/
def checkOverLength (assigner val : Value) : Except Panic (Option Err) :=
  match assigner.Len with
  | .error p => .error p
  | .ok la =>
    match val.Len with
    | .error p => .error p
    | .ok lv => if la < lv then .ok (some (getErrOverflowedLength assigner val)) else .ok none

/-- The slice loop of `iterateAndAssign`, over the indices still to visit;
`AssignReflect` is the recursive call. -/
def iterateSlice (AssignReflect : Callee) (assigner val : Value) :
    List Nat → Value → Except Stop Value
  | [], emptySlice => .ok emptySlice
  | index :: rest, emptySlice =>
    match liftPanic (GetElemType assigner) with
    | .error s => .error s
    | .ok elemType =>
      match liftPanic (New elemType) with
      | .error s => .error s
      | .ok ptr =>
        match liftPanic ptr.Elem with
        | .error s => .error s
        | .ok elemVal =>
          match liftPanic (val.Index index) with
          | .error s => .error s
          | .ok src =>
            match AssignReflect elemVal src with
            | none => .error .exhausted
            | some ⟨some err, _⟩ => .error (.ret err)
            | some ⟨none, d⟩ =>
              match liftPanic (AppendSlice emptySlice (storeChildElem elemVal d)) with
              | .error s => .error s
              | .ok appended =>
                match liftPanic (emptySlice.Set appended) with
                | .error s => .error s
                | .ok emptySlice => iterateSlice AssignReflect assigner val rest emptySlice

/-- The array loop of `iterateAndAssign`. -/
def iterateArray (AssignReflect : Callee) (val : Value) :
    List Nat → Value → Except Stop Value
  | [], emptyArray => .ok emptyArray
  | index :: rest, emptyArray =>
    match liftPanic (emptyArray.Index index) with
    | .error s => .error s
    | .ok slot =>
      match liftPanic (val.Index index) with
      | .error s => .error s
      | .ok src =>
        match AssignReflect slot src with
        | none => .error .exhausted
        | some ⟨some err, _⟩ => .error (.ret err)
        | some ⟨none, d⟩ =>
          iterateArray AssignReflect val rest
            { emptyArray with
              data := .seq (emptyArray.elems.set index (storeChildElem slot d).data) }

/-- The composite that `iterateAndAssign` builds before it writes to the
assigner. -/
def buildComposite (AssignReflect : Callee) (assigner val : Value)
    (isSlice : Bool) : Except Stop Value :=
  if isSlice then
    match liftPanic assigner.Type with
    | .error s => .error s
    | .ok t =>
      match liftPanic val.Len with
      | .error s => .error s
      | .ok n =>
        match liftPanic (MakeSlice t 0 n) with
        | .error s => .error s
        | .ok emptySlice => iterateSlice AssignReflect assigner val (List.range n) emptySlice
  else
    match liftPanic assigner.Len with
    | .error s => .error s
    | .ok la =>
      match liftPanic (GetElemType assigner) with
      | .error s => .error s
      | .ok elemType =>
        match liftPanic (ArrayOf la elemType) with
        | .error s => .error s
        | .ok typeArr =>
          match liftPanic (New (some typeArr)) with
          | .error s => .error s
          | .ok ptr =>
            match liftPanic ptr.Elem with
            | .error s => .error s
            | .ok emptyArray =>
              match liftPanic val.Len with
              | .error s => .error s
              | .ok n => iterateArray AssignReflect val (List.range n) emptyArray

/-- The function `iterateAndAssign`: the composite is built off to the side and
written with one `assigner.Set`. -/
def iterateAndAssign (AssignReflect : Callee) (assigner val : Value)
    (isSlice : Bool) : Option Flow :=
  match buildComposite AssignReflect assigner val isSlice with
  | .error .exhausted => none
  | .error (.ret err) => some (.ret (some err) assigner)
  | .error (.panic p) => some (.panic p assigner)
  | .ok built => some (Flow.ofSet assigner (assigner.Set built))

/-- The function `iterateAndAssignString`. -/
def iterateAndAssignString (assigner val : Value) : Flow :=
  match GetElemKind assigner with
  | .error p => .panic p assigner
  | .ok .Uint8 => Flow.ofSet assigner (Copy assigner val)
  | .ok .Int32 => .ret none assigner
  | .ok _ => .ret (some (getErrUnimplementedAssign assigner val)) assigner

/-- The body of `tryAssign`, before the deferred recover. -/
def tryAssignBody (env : Env) (AssignReflect : Callee)
    (assigner val : Value) : Option Flow :=
  let assignerKind := GetKind assigner
  match assignerKind with
  | .Bool =>
    match env.ExtractBool val with
    | .error err => some (.ret (some err) assigner)
    | .ok result => some (Flow.ofSet assigner (assigner.SetBool result))
  | .Int | .Int8 | .Int16 | .Int32 | .Int64 =>
    match env.ExtractInt val with
    | .error err => some (.ret (some err) assigner)
    | .ok result =>
      match assigner.OverflowInt env.is64 result with
      | .error p => some (.panic p assigner)
      | .ok true => some (.ret (some (getErrOverflow assigner)) assigner)
      | .ok false => some (Flow.ofSet assigner (assigner.SetInt env.is64 result))
  | .Uint | .Uint8 | .Uint16 | .Uint32 | .Uint64 | .Uintptr =>
    match env.ExtractUint val with
    | .error err => some (.ret (some err) assigner)
    | .ok result =>
      match assigner.OverflowUint env.is64 result with
      | .error p => some (.panic p assigner)
      | .ok true => some (.ret (some (getErrOverflow assigner)) assigner)
      | .ok false => some (Flow.ofSet assigner (assigner.SetUint env.is64 result))
  | .Float32 | .Float64 =>
    match env.ExtractFloat val with
    | .error err => some (.ret (some err) assigner)
    | .ok result =>
      match assigner.OverflowFloat env.ovf32 result with
      | .error p => some (.panic p assigner)
      | .ok true => some (.ret (some (getErrOverflow assigner)) assigner)
      | .ok false => some (Flow.ofSet assigner (assigner.SetFloat env.round32 result))
  | .Complex64 | .Complex128 =>
    match env.ExtractComplex val with
    | .error err => some (.ret (some err) assigner)
    | .ok result =>
      match assigner.OverflowComplex env.ovf32 result with
      | .error p => some (.panic p assigner)
      | .ok true => some (.ret (some (getErrOverflow assigner)) assigner)
      | .ok false => some (Flow.ofSet assigner (assigner.SetComplex env.round32 result))
  | .Array | .Slice =>
    match GetKind val with
    | .Array | .Slice =>
      let isSlice := decide (assignerKind = .Slice)
      if !isSlice then
        match checkOverLength assigner val with
        | .error p => some (.panic p assigner)
        | .ok (some err) => some (.ret (some err) assigner)
        | .ok none => iterateAndAssign AssignReflect assigner val isSlice
      else iterateAndAssign AssignReflect assigner val isSlice
    | .String => some (iterateAndAssignString assigner val)
    | _ => some (.ret (some (getErrUnimplementedAssign assigner val)) assigner)
  | .Chan => some (.ret none assigner)
  | .Func => some (.ret none assigner)
  | .Map => some (.ret none assigner)
  | .String =>
    match env.ExtractString val with
    | .error err => some (.ret (some err) assigner)
    | .ok result => some (Flow.ofSet assigner (assigner.SetString result))
  | .Struct => some (.ret none assigner)
  | _ => some (.ret (some (getErrUnimplementedAssign assigner val)) assigner)

/-- The function `tryAssign`: the body under `defer recover`. -/
def tryAssign (env : Env) (AssignReflect : Callee)
    (assigner val : Value) : Option Outcome :=
  match tryAssignBody env AssignReflect assigner val with
  | none => none
  | some (.ret err a) => some ⟨err, a.data⟩
  | some (.panic rec a) => some ⟨some (recovered rec), a.data⟩

/-- The body of `AssignReflect`, with its recursive calls abstracted. -/
def assignReflectBody (env : Env) (AssignReflect : Callee)
    (assigner val : Value) : Option Outcome :=
  let assigner := GetChildElem assigner
  let val := GetChildElem val
  match checkAssigner assigner with
  | some err => some ⟨some err, assigner.data⟩
  | none =>
    match getErrIsValid val with
    | some err => some ⟨some err, assigner.data⟩
    | none => tryAssign env AssignReflect assigner val

/-- AssignReflect assigns the val of the reflect.Value to the assigner.  The
first argument bounds the depth of nested calls; `none` means the bound was hit. -/
def AssignReflect (env : Env) : Nat → Callee
  | 0 => fun _ _ => none
  | depth + 1 => assignReflectBody env (AssignReflect env depth)

/-- The number of array and slice layers of a type, through pointers: a bound
on how deep calls of `AssignReflect` nest for a destination of that type. -/
def nest : Typ → Nat
  | .array _ e => nest e + 1
  | .slice e => nest e + 1
  | .ptr e => nest e
  | _ => 0

/-! ## value.go -/

/-- IterateStructFunc is function to iterate each field of structInput.  A
callback acts on the state `σ` of its caller and may panic. -/
abbrev IterateStructFunc (σ : Type) := Value → Value → σ → Except Panic σ

/-- IterateStructErrorFunc is function to iterate each field of structInput and
returning error if needed. -/
abbrev IterateStructErrorFunc (σ : Type) :=
  Value → Value → σ → Except Panic (Option Err × σ)

/-- Modelled from the spec: IsKindStruct is not under src; it tells whether a
kind is the struct kind. -/
def IsKindStruct (kind : Kind) : Bool := kind = .Struct

/-- The method `reflect.Value.NumField`; panics unless the kind is Struct. -/
def NumField (v : Value) : Except Panic Nat :=
  match v.typ with
  | some (.struct fs) => .ok fs.length
  | _ => .error (.valueError "reflect.Value.NumField" v.Kind)

end reflecthelper

namespace reflecthelper

set_option linter.dupNamespace false in
/-- Value is a custom struct for representing reflect.Value. -/
structure Value where
  Value : reflect.Value
  kind : reflect.Kind
  err : Option Err

/-- Error returns the error contained within the Value. -/
def Value.Error (s : reflecthelper.Value) : Option Err := s.err

/-- The method `isStruct`. -/
def Value.isStruct (s : reflecthelper.Value) : Bool := IsKindStruct s.kind

/-- The loop `for index := 0; index < s.NumField(); index++` whose body is
empty: `count` rounds that leave the caller's state as it is. -/
def emptyLoop {σ : Type} (count : Nat) (st : σ) : σ :=
  (List.range count).foldl (fun acc _index => acc) st

/-- The method `iterateStruct`: the loop over the field indices has no body, so
the callbacks `fns` are not used. -/
def Value.iterateStruct {σ : Type} (s : reflecthelper.Value) (_fns : List (IterateStructFunc σ))
    (st : σ) : Except reflect.Panic σ :=
  match NumField s.Value with
  | .error p => .error p
  | .ok n => .ok (emptyLoop n st)

/-- IterateStruct iterates all the field in this struct. -/
def Value.IterateStruct {σ : Type} (s : reflecthelper.Value) (fns : List (IterateStructFunc σ))
    (st : σ) : Except reflect.Panic (reflecthelper.Value × σ) :=
  if !s.isStruct then .ok (s, st)
  else
    match s.iterateStruct fns st with
    | .error p => .error p
    | .ok st2 => .ok (s, st2)

/-- The method `iterateStructError`: again a loop without a body; the error it
returns is nil. -/
def Value.iterateStructError {σ : Type} (s : reflecthelper.Value)
    (_fns : List (IterateStructErrorFunc σ)) (st : σ) :
    Except reflect.Panic (Option Err × σ) :=
  match NumField s.Value with
  | .error p => .error p
  | .ok n => .ok (none, emptyLoop n st)

/-- The method `IterateStructError`: the error of the loop is stored in the
wrapper. -/
def Value.IterateStructError {σ : Type} (s : reflecthelper.Value)
    (fns : List (IterateStructErrorFunc σ)) (st : σ) :
    Except reflect.Panic (reflecthelper.Value × σ) :=
  if !s.isStruct then .ok (s, st)
  else
    match s.iterateStructError fns st with
    | .error p => .error p
    | .ok (err, st2) => .ok ({ s with err := err }, st2)

/-- CastStruct casts the val of reflect.Value to the ReflectStruct. -/
def CastStruct (val : reflect.Value) : reflecthelper.Value :=
  let val := GetChildElem val
  let kind := GetKind val
  if IsKindStruct kind then ⟨val, kind, none⟩
  else ⟨reflect.Value.zeroValue, .Invalid, none⟩

/-- Modelled from the spec: RecoverFn is not under src.  "A panic during any
callback is caught and recorded as the traversal's error (preserving an
error-typed panic payload verbatim, otherwise formatting it)"; without a panic
the error slot is left alone.  `rec` is what `recover()` returns. -/
def RecoverFn (rec : Option reflect.Panic) (err : Option Err) : Option Err :=
  match rec with
  | none => err
  | some p => some (recovered p)

/-- What a call of `IterateStructPanic` leaves behind: the pointer it returns
(the receiver, or nil when a panic was recovered, the result being unnamed), the
receiver afterwards and the state of the caller. -/
structure PanicOutcome (σ : Type) where
  ret : Option reflecthelper.Value
  s : reflecthelper.Value
  st : σ

/-- IterateStructPanic iterates all the field in this struct by returning err
when the iteration function panics: the body runs under `defer RecoverFn(&s.err)`.
A panic of `iterateStruct` can only come from `NumField`, before anything ran,
so the caller's state is then the one at entry. -/
def Value.IterateStructPanic {σ : Type} (s : reflecthelper.Value)
    (fns : List (IterateStructFunc σ)) (st : σ) : PanicOutcome σ :=
  if !s.isStruct then
    ⟨some { s with err := RecoverFn none s.err }, { s with err := RecoverFn none s.err }, st⟩
  else
    match s.iterateStruct fns st with
    | .error p => ⟨none, { s with err := RecoverFn (some p) s.err }, st⟩
    | .ok st2 =>
      ⟨some { s with err := RecoverFn none s.err }, { s with err := RecoverFn none s.err }, st2⟩

end reflecthelper

/-! ## Properties of the coercion engine -/

namespace reflecthelper

open reflect

theorem GetKind_eq (v : reflect.Value) : GetKind v = v.Kind := by
  unfold GetKind Value.IsValid Value.Kind
  cases v.typ <;> simp

theorem intBits_width {is64 : Bool} {k : Kind} {W : Nat} (h : intBits is64 k = some W) :
    W = 8 ∨ W = 16 ∨ W = 32 ∨ W = 64 := by
  cases k <;> cases is64 <;> simp [intBits] at h <;> omega

theorem uintBits_width {is64 : Bool} {k : Kind} {W : Nat} (h : uintBits is64 k = some W) :
    W = 8 ∨ W = 16 ∨ W = 32 ∨ W = 64 := by
  cases k <;> cases is64 <;> simp [uintBits] at h <;> omega

theorem overflowInt_iff {W : Nat} (hW : W = 8 ∨ W = 16 ∨ W = 32 ∨ W = 64) (v : Int) :
    v ≠ wrapInt 64 (v * 2 ^ (64 - W)) / 2 ^ (64 - W) ↔
      ¬ (-(2 : Int) ^ (W - 1) ≤ v ∧ v < 2 ^ (W - 1)) := by
  unfold wrapInt
  rcases hW with h | h | h | h <;> subst h <;> norm_num <;> omega

theorem wrapInt_of_range {W : Nat} (hW : W = 8 ∨ W = 16 ∨ W = 32 ∨ W = 64) (v : Int)
    (h : -(2 : Int) ^ (W - 1) ≤ v ∧ v < 2 ^ (W - 1)) : wrapInt W v = v := by
  unfold wrapInt
  rcases hW with h' | h' | h' | h' <;> subst h' <;> norm_num at * <;> omega

theorem overflowUint_iff {W : Nat} (hW : W = 8 ∨ W = 16 ∨ W = 32 ∨ W = 64) (v : Nat) :
    v ≠ wrapUint 64 (v * 2 ^ (64 - W)) / 2 ^ (64 - W) ↔ ¬ v < 2 ^ W := by
  unfold wrapUint
  rcases hW with h | h | h | h <;> subst h <;> norm_num <;> omega

theorem wrapUint_of_range {W : Nat} (v : Nat) (h : v < 2 ^ W) : wrapUint W v = v := by
  unfold wrapUint
  exact Nat.mod_eq_of_lt h

theorem isValid_of_intBits {is64 : Bool} {a : reflect.Value} {W : Nat}
    (h : intBits is64 a.Kind = some W) : a.IsValid = true := by
  unfold Value.IsValid
  unfold Value.Kind at h
  cases ht : a.typ <;> simp [ht, intBits] at h ⊢

theorem overflowInt_eq {is64 : Bool} {a : reflect.Value} {W : Nat} (v : Int)
    (hW : intBits is64 a.Kind = some W) :
    a.OverflowInt is64 v = .ok (decide ¬ (-(2 : Int) ^ (W - 1) ≤ v ∧ v < 2 ^ (W - 1))) := by
  unfold Value.OverflowInt
  rw [hW]
  simp only [Except.ok.injEq, decide_eq_decide]
  exact overflowInt_iff (intBits_width hW) v

theorem setInt_eq {is64 : Bool} {a : reflect.Value} {W : Nat} (v : Int)
    (hW : intBits is64 a.Kind = some W) (hset : a.canSet = true) :
    a.SetInt is64 v = .ok { a with data := .int (wrapInt W v) } := by
  unfold Value.SetInt Value.setter
  rw [hW]
  simp [isValid_of_intBits hW, hset]

theorem tryAssignBody_int (env : Env) (rec : Callee) (a val : reflect.Value)
    (W : Nat) (hW : intBits env.is64 a.Kind = some W) :
    tryAssignBody env rec a val =
      match env.ExtractInt val with
      | .error err => some (.ret (some err) a)
      | .ok result =>
        match a.OverflowInt env.is64 result with
        | .error p => some (.panic p a)
        | .ok true => some (.ret (some (getErrOverflow a)) a)
        | .ok false => some (Flow.ofSet a (a.SetInt env.is64 result)) := by
  unfold tryAssignBody
  simp only [GetKind_eq]
  cases hk : a.Kind <;> simp [hk, intBits] at hW <;> rfl

theorem tryAssign_int (env : Env) (rec : Callee) (a val : reflect.Value)
    (W : Nat) (v : Int) (hset : a.canSet = true) (hW : intBits env.is64 a.Kind = some W)
    (hv : env.ExtractInt val = .ok v) :
    tryAssign env rec a val =
      some (if -(2 : Int) ^ (W - 1) ≤ v ∧ v < 2 ^ (W - 1) then ⟨none, .int v⟩
        else ⟨some (getErrOverflow a), a.data⟩) := by
  unfold tryAssign
  rw [tryAssignBody_int env rec a val W hW, hv]
  simp only [overflowInt_eq v hW, setInt_eq v hW hset]
  by_cases hr : -(2 : Int) ^ (W - 1) ≤ v ∧ v < 2 ^ (W - 1)
  · simp [hr, Flow.ofSet, wrapInt_of_range (intBits_width hW) v hr]
  · simp [hr]

theorem checkAssigner_ok {a : reflect.Value} (hvalid : a.IsValid = true) (hset : a.canSet = true) :
    checkAssigner a = none := by
  simp [checkAssigner, getErrIsValid, hvalid, Value.CanSet, hset]

theorem getErrIsValid_ok {a : reflect.Value} (hvalid : a.IsValid = true) :
    getErrIsValid a = none := by
  simp [getErrIsValid, hvalid]

/-- With a valid settable destination and a valid source (both after the
unwrap), `AssignReflect` is `tryAssign` on the unwrapped handles. -/
theorem AssignReflect_eq_tryAssign (env : Env) (depth : Nat) (assigner val : reflect.Value)
    (hvalid : (GetChildElem assigner).IsValid = true)
    (hset : (GetChildElem assigner).canSet = true)
    (hsrc : (GetChildElem val).IsValid = true) :
    AssignReflect env (depth + 1) assigner val =
      tryAssign env (AssignReflect env depth) (GetChildElem assigner) (GetChildElem val) := by
  simp [AssignReflect, assignReflectBody, checkAssigner_ok hvalid hset, getErrIsValid_ok hsrc]

/-- C1: for a valid, settable signed-integer destination of declared width W
and a valid source from which the 64-bit signed extraction yields v,
AssignReflect returns no error and the destination holds v if and only if
-2^(W-1) <= v < 2^(W-1); otherwise it returns the overflow error and the
destination keeps its previous value. -/
theorem AssignReflect_signed_width (env : Env) (depth : Nat) (assigner val : reflect.Value) (W :
    Nat)
    (v : Int)
    (hset : (GetChildElem assigner).CanSet = true)
    (hW : intBits env.is64 (GetKind (GetChildElem assigner)) = some W)
    (hsrc : (GetChildElem val).IsValid = true)
    (hv : env.ExtractInt (GetChildElem val) = .ok v) :
    ∃ out, AssignReflect env (depth + 1) assigner val = some out ∧
      ((out.err = none ∧ out.dst = .int v) ↔
        (-(2 : Int) ^ (W - 1) ≤ v ∧ v < 2 ^ (W - 1))) ∧
      (¬ (-(2 : Int) ^ (W - 1) ≤ v ∧ v < 2 ^ (W - 1)) →
        out.err = some (getErrOverflow (GetChildElem assigner)) ∧
          out.dst = (GetChildElem assigner).data) := by
  rw [GetKind_eq] at hW
  rw [AssignReflect_eq_tryAssign env depth assigner val (isValid_of_intBits hW) hset hsrc,
    tryAssign_int env _ _ _ W v hset hW hv]
  refine ⟨_, rfl, ?_, ?_⟩
  · by_cases hr : -(2 : Int) ^ (W - 1) ≤ v ∧ v < 2 ^ (W - 1)
    · simp [hr]
    · simp [hr]
  · intro hr
    simp [hr]

/-- C1 at a concrete input: an int8 variable holding 7 receives 100 from an
int source. -/
theorem AssignReflect_signed_width_witness :
    ∃ out, AssignReflect env64 1 ⟨some (.basic .Int8), .int 7, true⟩
        ⟨some (.basic .Int), .int 100, false⟩ = some out ∧
      ((out.err = none ∧ out.dst = .int 100) ↔
        (-(2 : Int) ^ (8 - 1) ≤ 100 ∧ (100 : Int) < 2 ^ (8 - 1))) ∧
      (¬ (-(2 : Int) ^ (8 - 1) ≤ 100 ∧ (100 : Int) < 2 ^ (8 - 1)) →
        out.err = some (getErrOverflow (GetChildElem ⟨some (.basic .Int8), .int 7, true⟩)) ∧
          out.dst = (GetChildElem ⟨some (.basic .Int8), .int 7, true⟩).data) :=
  AssignReflect_signed_width env64 0 ⟨some (.basic .Int8), .int 7, true⟩
    ⟨some (.basic .Int), .int 100, false⟩ 8 100 rfl rfl rfl rfl

theorem isValid_of_uintBits {is64 : Bool} {a : reflect.Value} {W : Nat}
    (h : uintBits is64 a.Kind = some W) : a.IsValid = true := by
  unfold Value.IsValid
  unfold Value.Kind at h
  cases ht : a.typ <;> simp [ht, uintBits] at h ⊢

theorem overflowUint_eq {is64 : Bool} {a : reflect.Value} {W : Nat} (u : Nat)
    (hW : uintBits is64 a.Kind = some W) :
    a.OverflowUint is64 u = .ok (decide ¬ u < 2 ^ W) := by
  unfold Value.OverflowUint
  rw [hW]
  simp only [Except.ok.injEq, decide_eq_decide]
  exact overflowUint_iff (uintBits_width hW) u

theorem setUint_eq {is64 : Bool} {a : reflect.Value} {W : Nat} (u : Nat)
    (hW : uintBits is64 a.Kind = some W) (hset : a.canSet = true) :
    a.SetUint is64 u = .ok { a with data := .uint (wrapUint W u) } := by
  unfold Value.SetUint Value.setter
  rw [hW]
  simp [isValid_of_uintBits hW, hset]

theorem tryAssignBody_uint (env : Env) (rec : Callee) (a val : reflect.Value)
    (W : Nat) (hW : uintBits env.is64 a.Kind = some W) :
    tryAssignBody env rec a val =
      match env.ExtractUint val with
      | .error err => some (.ret (some err) a)
      | .ok result =>
        match a.OverflowUint env.is64 result with
        | .error p => some (.panic p a)
        | .ok true => some (.ret (some (getErrOverflow a)) a)
        | .ok false => some (Flow.ofSet a (a.SetUint env.is64 result)) := by
  unfold tryAssignBody
  simp only [GetKind_eq]
  cases hk : a.Kind <;> simp [hk, uintBits] at hW <;> rfl

theorem tryAssign_uint (env : Env) (rec : Callee) (a val : reflect.Value)
    (W : Nat) (u : Nat) (hset : a.canSet = true) (hW : uintBits env.is64 a.Kind = some W)
    (hv : env.ExtractUint val = .ok u) :
    tryAssign env rec a val =
      some (if u < 2 ^ W then ⟨none, .uint u⟩ else ⟨some (getErrOverflow a), a.data⟩) := by
  unfold tryAssign
  rw [tryAssignBody_uint env rec a val W hW, hv]
  simp only [overflowUint_eq u hW, setUint_eq u hW hset]
  by_cases hr : u < 2 ^ W
  · simp [hr, Flow.ofSet, wrapUint_of_range u hr]
  · simp [hr]

theorem tryAssign_uint_error (env : Env) (rec : Callee)
    (a val : reflect.Value) (W : Nat) (e : Err) (hW : uintBits env.is64 a.Kind = some W)
    (hv : env.ExtractUint val = .error e) :
    tryAssign env rec a val = some ⟨some e, a.data⟩ := by
  unfold tryAssign
  rw [tryAssignBody_uint env rec a val W hW, hv]

theorem isValid_of_intValue {val : reflect.Value} {v : Int} (h : intValue val = some v) :
    val.IsValid = true := by
  unfold Value.IsValid
  unfold intValue Value.Kind at h
  cases ht : val.typ <;> simp [ht, intBits, uintBits] at h ⊢

/-- C2: for a valid, settable unsigned-integer destination of declared width W
and a source holding the integer v, AssignReflect succeeds and stores v if and
only if 0 <= v < 2^W, and otherwise fails with the overflow error, the
destination keeping its value (the extraction helper as modelled from the
spec). -/
theorem AssignReflect_unsigned_width (is64 : Bool) (ovf32 : Nat → Bool) (round32 : Nat → Nat)
    (depth : Nat) (assigner val : reflect.Value) (W : Nat) (v : Int)
    (hset : (GetChildElem assigner).CanSet = true)
    (hW : uintBits is64 (GetKind (GetChildElem assigner)) = some W)
    (hv : intValue (GetChildElem val) = some v) :
    ∃ out, AssignReflect (specEnv is64 ovf32 round32) (depth + 1) assigner val = some out ∧
      ((out.err = none ∧ out.dst = .uint v.toNat) ↔ (0 ≤ v ∧ v < 2 ^ W)) ∧
      (¬ (0 ≤ v ∧ v < 2 ^ W) →
        out.err = some (getErrOverflow (GetChildElem assigner)) ∧
          out.dst = (GetChildElem assigner).data) := by
  rw [GetKind_eq] at hW
  have hW' : uintBits (specEnv is64 ovf32 round32).is64 (GetChildElem assigner).Kind = some W :=
    hW
  have hw64 : (2 : Int) ^ W ≤ 2 ^ 64 := by
    rcases uintBits_width hW with h | h | h | h <;> subst h <;> norm_num
  rw [AssignReflect_eq_tryAssign _ depth assigner val (isValid_of_uintBits hW) hset
    (isValid_of_intValue hv)]
  by_cases h64 : 0 ≤ v ∧ v < 2 ^ 64
  · have hx : (specEnv is64 ovf32 round32).ExtractUint (GetChildElem val) = .ok v.toNat := by
      show ExtractUint (GetChildElem val) = _
      simp only [ExtractUint, hv]
      rw [if_pos h64]
    rw [tryAssign_uint _ _ _ _ W v.toNat hset hW' hx]
    have hcast : v.toNat < 2 ^ W ↔ v < 2 ^ W := by
      have h0 := Int.toNat_of_nonneg h64.1
      constructor
      · intro h
        have : ((v.toNat : Nat) : Int) < ((2 ^ W : Nat) : Int) := by exact_mod_cast h
        rw [h0] at this
        exact_mod_cast this
      · intro h
        have : ((v.toNat : Nat) : Int) < ((2 ^ W : Nat) : Int) := by
          rw [h0]
          exact_mod_cast h
        exact_mod_cast this
    refine ⟨_, rfl, ?_, ?_⟩
    · by_cases hr : v.toNat < 2 ^ W
      · simp [hr, h64.1, hcast.mp hr]
      · have : ¬ v < 2 ^ W := fun h => hr (hcast.mpr h)
        simp [hr, this]
    · intro hr
      have : ¬ v.toNat < 2 ^ W := fun h => hr ⟨h64.1, hcast.mp h⟩
      simp [this]
  · have hx : (specEnv is64 ovf32 round32).ExtractUint (GetChildElem val) =
        .error .ErrOverflow := by
      show ExtractUint (GetChildElem val) = _
      simp only [ExtractUint, hv]
      rw [if_neg h64]
    rw [tryAssign_uint_error _ _ _ _ W _ hW' hx]
    have hr : ¬ (0 ≤ v ∧ v < 2 ^ W) := fun h => h64 ⟨h.1, lt_of_lt_of_le h.2 hw64⟩
    refine ⟨_, rfl, ?_, ?_⟩
    · simp [hr]
    · intro _
      exact ⟨rfl, rfl⟩

/-- C2 at concrete inputs: into a settable uint8 holding 9, the int 255 is
stored, while 256 and -1 fail with the overflow error and leave the 9. -/
theorem AssignReflect_unsigned_width_witness :
    AssignReflect env64 1 ⟨some (.basic .Uint8), .uint 9, true⟩
        ⟨some (.basic .Int), .int 255, false⟩ = some ⟨none, .uint 255⟩ ∧
      AssignReflect env64 1 ⟨some (.basic .Uint8), .uint 9, true⟩
        ⟨some (.basic .Int), .int 256, false⟩ = some ⟨some .ErrOverflow, .uint 9⟩ ∧
      AssignReflect env64 1 ⟨some (.basic .Uint8), .uint 9, true⟩
        ⟨some (.basic .Int), .int (-1), false⟩ = some ⟨some .ErrOverflow, .uint 9⟩ := by
  refine ⟨?_, ?_, ?_⟩
  · obtain ⟨out, h, hiff, _⟩ := AssignReflect_unsigned_width true (fun _ => false) id 0
      ⟨some (.basic .Uint8), .uint 9, true⟩ ⟨some (.basic .Int), .int 255, false⟩ 8 255
      rfl rfl rfl
    obtain ⟨h1, h2⟩ := hiff.mpr (by norm_num)
    obtain ⟨e, d⟩ := out
    simp only at h1 h2
    subst h1 h2
    exact h
  · obtain ⟨out, h, _, hn⟩ := AssignReflect_unsigned_width true (fun _ => false) id 0
      ⟨some (.basic .Uint8), .uint 9, true⟩ ⟨some (.basic .Int), .int 256, false⟩ 8 256
      rfl rfl rfl
    obtain ⟨h1, h2⟩ := hn (by norm_num)
    obtain ⟨e, d⟩ := out
    simp only at h1 h2
    subst h1 h2
    exact h
  · obtain ⟨out, h, _, hn⟩ := AssignReflect_unsigned_width true (fun _ => false) id 0
      ⟨some (.basic .Uint8), .uint 9, true⟩ ⟨some (.basic .Int), .int (-1), false⟩ 8 (-1)
      rfl rfl rfl
    obtain ⟨h1, h2⟩ := hn (by norm_num)
    obtain ⟨e, d⟩ := out
    simp only at h1 h2
    subst h1 h2
    exact h

theorem set_unaddressable (v x : reflect.Value) (h : v.canSet = false) :
    ∃ p, v.Set x = .error p := by
  unfold Value.Set
  cases v.typ with
  | none => exact ⟨_, rfl⟩
  | some t => simp [h]

/-- One round of the slice loop never completes: the accumulator made by
`reflect.MakeSlice` is not addressable, so `emptySlice.Set` panics whenever the
element was coerced and appended. -/
theorem iterateSlice_cons (rec : Callee) (assigner val : reflect.Value)
    (index : Nat) (rest : List Nat) (emptySlice : reflect.Value) (h : emptySlice.canSet = false) :
    ∃ s, iterateSlice rec assigner val (index :: rest) emptySlice = .error s := by
  simp only [iterateSlice]
  split
  · exact ⟨_, rfl⟩
  · split
    · exact ⟨_, rfl⟩
    · split
      · exact ⟨_, rfl⟩
      · split
        · exact ⟨_, rfl⟩
        · split
          · exact ⟨_, rfl⟩
          · exact ⟨_, rfl⟩
          · split
            · exact ⟨_, rfl⟩
            · rename_i appended _
              obtain ⟨p, hp⟩ := set_unaddressable emptySlice appended h
              simp [hp, liftPanic]

theorem typ_of_kind_slice {a : reflect.Value} (h : a.Kind = .Slice) : ∃ e, a.typ = some
    (.slice e) := by
  unfold Value.Kind at h
  cases ht : a.typ with
  | none => simp [ht] at h
  | some t =>
    cases t with
    | basic b => cases b <;> simp [ht, Typ.Kind, Basic.Kind] at h
    | slice e => exact ⟨e, rfl⟩
    | _ => simp [ht, Typ.Kind] at h

theorem typ_of_kind_array {a : reflect.Value} (h : a.Kind = .Array) :
    ∃ n e, a.typ = some (.array n e) := by
  unfold Value.Kind at h
  cases ht : a.typ with
  | none => simp [ht] at h
  | some t =>
    cases t with
    | basic b => cases b <;> simp [ht, Typ.Kind, Basic.Kind] at h
    | array n e => exact ⟨n, e, rfl⟩
    | _ => simp [ht, Typ.Kind] at h

theorem tryAssignBody_slice (env : Env) (rec : Callee) (a val : reflect.Value)
    (ha : a.Kind = .Slice) (hv : val.Kind = .Array ∨ val.Kind = .Slice) :
    tryAssignBody env rec a val = iterateAndAssign rec a val true := by
  unfold tryAssignBody
  simp only [GetKind_eq, ha]
  rcases hv with hv | hv <;> simp [hv]

theorem tryAssignBody_array (env : Env) (rec : Callee) (a val : reflect.Value)
    (ha : a.Kind = .Array) (hv : val.Kind = .Array ∨ val.Kind = .Slice) :
    tryAssignBody env rec a val =
      match checkOverLength a val with
      | .error p => some (.panic p a)
      | .ok (some err) => some (.ret (some err) a)
      | .ok none => iterateAndAssign rec a val false := by
  unfold tryAssignBody
  simp only [GetKind_eq, ha]
  rcases hv with hv | hv <;> simp [hv]

theorem len_of_seq_kind {val : reflect.Value} (hv : val.Kind = .Array ∨ val.Kind = .Slice) :
    ∃ n, val.Len = .ok n := by
  rcases hv with hv | hv
  · obtain ⟨n, e, ht⟩ := typ_of_kind_array hv
    exact ⟨n, by simp [Value.Len, ht]⟩
  · obtain ⟨e, ht⟩ := typ_of_kind_slice hv
    exact ⟨val.elems.length, by simp [Value.Len, ht]⟩

/-- The slice branch never succeeds on a source that has an element: whatever
the extraction helpers do, the call ends with an error and the destination is
left as it was. -/
theorem tryAssign_slice_nonempty (env : Env) (rec : Callee)
    (a val : reflect.Value) (n : Nat) (ha : a.Kind = .Slice)
    (hv : val.Kind = .Array ∨ val.Kind = .Slice) (hn : val.Len = .ok (n + 1)) (out : Outcome)
    (h : tryAssign env rec a val = some out) : out.err ≠ none ∧ out.dst = a.data := by
  obtain ⟨e, ht⟩ := typ_of_kind_slice ha
  unfold tryAssign at h
  rw [tryAssignBody_slice env rec a val ha hv] at h
  have hb : ∃ s, buildComposite rec a val true = .error s := by
    simp only [buildComposite, Value.Type, ht, liftPanic, hn, MakeSlice, if_true]
    simp only [Nat.not_lt_zero, if_false, List.range_succ_eq_map]
    exact iterateSlice_cons rec a val 0 _ _ rfl
  obtain ⟨s, hs⟩ := hb
  unfold iterateAndAssign at h
  rw [hs] at h
  cases s with
  | ret err =>
    simp only [Option.some.injEq] at h
    subst h
    exact ⟨by simp, rfl⟩
  | panic p =>
    simp only [Option.some.injEq] at h
    subst h
    exact ⟨by simp, rfl⟩
  | exhausted => simp at h

/-! ### The array loop -/

theorem set_append_replicate {α : Type} (ds : List α) (z d : α) (n : Nat) :
    (ds ++ List.replicate (n + 1) z).set ds.length d = ds ++ d :: List.replicate n z := by
  induction ds with
  | nil => simp [List.replicate_succ]
  | cons x xs ih => simp [ih]

theorem getD_append_replicate {α : Type} (ds : List α) (z : α) (n : Nat) :
    (ds ++ List.replicate n z)[ds.length]?.getD z = z := by
  induction ds with
  | nil => cases n <;> simp [List.replicate_succ]
  | cons x xs ih => simpa using ih

/-- The handle of a fresh element of type `e`: what `reflect.New(e).Elem()` and
an untouched `emptyArray.Index(i)` denote. -/
theorem index_fresh (L : Nat) (e : Typ) (ds : List Data) (n : Nat) (h : ds.length < L) :
    Value.Index ⟨some (.array L e), .seq (ds ++ List.replicate n (zero e)), true⟩ ds.length =
      .ok ⟨some e, zero e, true⟩ := by
  simp [Value.Index, Value.elems, h, getD_append_replicate]

/-- The array loop when every visited element is coerced: the visited prefix of
the fresh array is filled in order and the rest stays zero. -/
theorem iterateArray_ok (rec : Callee) (val : reflect.Value) (L : Nat)
    (e : Typ) (d : Nat → Data) :
    ∀ (m k : Nat) (ds : List Data), ds.length = k → k + m ≤ L →
      (∀ i, k ≤ i → i < k + m → ∃ src, val.Index i = .ok src ∧
        rec ⟨some e, zero e, true⟩ src = some ⟨none, d i⟩ ∧
        (storeChildElem ⟨some e, zero e, true⟩ (d i)).data = d i) →
      iterateArray rec val (List.range' k m)
          ⟨some (.array L e), .seq (ds ++ List.replicate (L - k) (zero e)), true⟩ =
        .ok ⟨some (.array L e),
          .seq (ds ++ (List.range' k m).map d ++ List.replicate (L - (k + m)) (zero e)),
          true⟩ := by
  intro m
  induction m with
  | zero =>
    intro k ds _ _ _
    simp [iterateArray]
  | succ m ih =>
    intro k ds hds hkm h
    obtain ⟨src, h1, h2, h3⟩ := h k (le_refl k) (by omega)
    have hlt : ds.length < L := by omega
    have hL : L - k = (L - (k + 1)) + 1 := by omega
    have hidx := index_fresh L e ds (L - k) hlt
    rw [hds] at hidx
    simp only [List.range'_succ, iterateArray, hidx, liftPanic, h1, h2, h3]
    have hset : (Value.elems ⟨some (.array L e), .seq (ds ++ List.replicate (L - k) (zero e)),
        true⟩).set k (d k) = (ds ++ [d k]) ++ List.replicate (L - (k + 1)) (zero e) := by
      simp only [Value.elems]
      rw [hL, ← hds, set_append_replicate]
      simp
    rw [hset]
    have := ih (k + 1) (ds ++ [d k]) (by simp [hds]) (by omega)
      (fun i hi1 hi2 => h i (by omega) (by omega))
    rw [this]
    simp [List.append_assoc, Nat.add_assoc, Nat.add_comm 1 m]

/-- The array loop stops at the first element whose coercion fails, with that
element's error. -/
theorem iterateArray_first_error (rec : Callee) (val : reflect.Value)
    (L : Nat) (e : Typ) (d : Nat → Data) (f : Nat) (srcf : reflect.Value) (err : Err)
    (dd : Data) :
    ∀ (m k : Nat) (ds : List Data), ds.length = k → k + m ≤ L → k ≤ f → f < k + m →
      (∀ i, k ≤ i → i < f → ∃ src, val.Index i = .ok src ∧
        rec ⟨some e, zero e, true⟩ src = some ⟨none, d i⟩) →
      val.Index f = .ok srcf →
      rec ⟨some e, zero e, true⟩ srcf = some ⟨some err, dd⟩ →
      iterateArray rec val (List.range' k m)
          ⟨some (.array L e), .seq (ds ++ List.replicate (L - k) (zero e)), true⟩ =
        .error (.ret err) := by
  intro m
  induction m with
  | zero =>
    intro k ds _ _ h1 h2
    omega
  | succ m ih =>
    intro k ds hds hkm hkf hfm h hf1 hf2
    have hlt : ds.length < L := by omega
    have hL : L - k = (L - (k + 1)) + 1 := by omega
    have hidx := index_fresh L e ds (L - k) hlt
    rw [hds] at hidx
    by_cases hk : k = f
    · subst hk
      simp only [List.range'_succ, iterateArray, hidx, liftPanic, hf1, hf2]
    · obtain ⟨src, h1, h2⟩ := h k (le_refl k) (by omega)
      simp only [List.range'_succ, iterateArray, hidx, liftPanic, h1, h2]
      have hset : (Value.elems ⟨some (.array L e),
          .seq (ds ++ List.replicate (L - k) (zero e)), true⟩).set k
            (storeChildElem ⟨some e, zero e, true⟩ (d k)).data =
          (ds ++ [(storeChildElem ⟨some e, zero e, true⟩ (d k)).data]) ++
            List.replicate (L - (k + 1)) (zero e) := by
        simp only [Value.elems]
        rw [hL, ← hds, set_append_replicate]
        simp
      rw [hset]
      exact ih (k + 1) _ (by simp [hds]) (by omega) (by omega) (by omega)
        (fun i hi1 hi2 => h i (by omega) hi2) hf1 hf2

/-- An error returned by the array loop is the error of the coercion of one of
the visited elements into a fresh element. -/
theorem iterateArray_error_origin (rec : Callee) (val : reflect.Value)
    (L : Nat) (e : Typ) (err : Err) :
    ∀ (m k : Nat) (ds : List Data), ds.length = k → k + m ≤ L →
      iterateArray rec val (List.range' k m)
          ⟨some (.array L e), .seq (ds ++ List.replicate (L - k) (zero e)), true⟩ =
        .error (.ret err) →
      ∃ i src dd, k ≤ i ∧ i < k + m ∧ val.Index i = .ok src ∧
        rec ⟨some e, zero e, true⟩ src = some ⟨some err, dd⟩ := by
  intro m
  induction m with
  | zero =>
    intro k ds _ _ h
    simp [iterateArray] at h
  | succ m ih =>
    intro k ds hds hkm h
    have hlt : ds.length < L := by omega
    have hL : L - k = (L - (k + 1)) + 1 := by omega
    have hidx := index_fresh L e ds (L - k) hlt
    rw [hds] at hidx
    simp only [List.range'_succ, iterateArray, hidx, liftPanic] at h
    cases hsrc : val.Index k with
    | error p => simp [hsrc] at h
    | ok src =>
      simp only [hsrc] at h
      cases hr : rec ⟨some e, zero e, true⟩ src with
      | none => simp [hr] at h
      | some out =>
        obtain ⟨oe, od⟩ := out
        cases oe with
        | some e2 =>
          simp only [hr, Except.error.injEq, Stop.ret.injEq] at h
          subst h
          exact ⟨k, src, od, le_refl k, by omega, hsrc, hr⟩
        | none =>
          simp only [hr] at h
          have hset : (Value.elems ⟨some (.array L e),
              .seq (ds ++ List.replicate (L - k) (zero e)), true⟩).set k
                (storeChildElem ⟨some e, zero e, true⟩ od).data =
              (ds ++ [(storeChildElem ⟨some e, zero e, true⟩ od).data]) ++
                List.replicate (L - (k + 1)) (zero e) := by
            simp only [Value.elems]
            rw [hL, ← hds, set_append_replicate]
            simp
          rw [hset] at h
          obtain ⟨i, s2, dd, hi1, hi2, hi3, hi4⟩ :=
            ih (k + 1) _ (by simp [hds]) (by omega) h
          exact ⟨i, s2, dd, by omega, by omega, hi3, hi4⟩

mutual
theorem beq_refl : ∀ t : Typ, Typ.beq t t = true
  | .basic _ => by simp [Typ.beq]
  | .array _ e => by simp [Typ.beq, beq_refl e]
  | .chan e => by simp [Typ.beq, beq_refl e]
  | .func => by simp [Typ.beq]
  | .iface => by simp [Typ.beq]
  | .map k e => by simp [Typ.beq, beq_refl k, beq_refl e]
  | .ptr e => by simp [Typ.beq, beq_refl e]
  | .slice e => by simp [Typ.beq, beq_refl e]
  | .struct fs => by simp [Typ.beq, beqList_refl fs]
theorem beqList_refl : ∀ fs : List Typ, Typ.beqList fs fs = true
  | [] => by simp [Typ.beqList]
  | t :: ts => by simp [Typ.beqList, beq_refl t, beqList_refl ts]
end

theorem zero_array (n : Nat) (e : Typ) :
    zero (.array n e) = .seq (List.replicate n (zero e)) := by
  rw [zero]

theorem recovered_ne_overflowedLength (p : Panic) : recovered p ≠ .ErrOverflowedLength := by
  unfold recovered
  split <;> simp

/-- The array branch of `tryAssign` when the source is longer than the
destination. -/
theorem tryAssign_array_overflow (env : Env) (rec : Callee)
    (a val : reflect.Value) (L N : Nat) (e : Typ) (ht : a.typ = some (.array L e))
    (hv : val.Kind = .Array ∨ val.Kind = .Slice) (hN : val.Len = .ok N) (h : L < N) :
    tryAssign env rec a val = some ⟨some .ErrOverflowedLength, a.data⟩ := by
  have ha : a.Kind = .Array := by simp [Value.Kind, ht, Typ.Kind]
  have haL : a.Len = .ok L := by simp [Value.Len, ht]
  unfold tryAssign
  rw [tryAssignBody_array env rec a val ha hv]
  simp [checkOverLength, haL, hN, h, getErrOverflowedLength]

/-- The array branch of `tryAssign` when the source fits: the loop runs on a
fresh array of the destination's type, and its result is written with `Set`. -/
theorem tryAssign_array_fits (env : Env) (rec : Callee)
    (a val : reflect.Value) (L N : Nat) (e : Typ) (ht : a.typ = some (.array L e))
    (hv : val.Kind = .Array ∨ val.Kind = .Slice) (hN : val.Len = .ok N) (h : N ≤ L) :
    tryAssign env rec a val =
      match iterateArray rec val (List.range' 0 N)
          ⟨some (.array L e), .seq ([] ++ List.replicate (L - 0) (zero e)), true⟩ with
      | .error .exhausted => none
      | .error (.ret err) => some ⟨some err, a.data⟩
      | .error (.panic p) => some ⟨some (recovered p), a.data⟩
      | .ok built =>
        match a.Set built with
        | .ok a2 => some ⟨none, a2.data⟩
        | .error p => some ⟨some (recovered p), a.data⟩ := by
  have ha : a.Kind = .Array := by simp [Value.Kind, ht, Typ.Kind]
  have hnl : ¬ L < N := by omega
  have haL : a.Len = .ok L := by simp [Value.Len, ht]
  unfold tryAssign
  rw [tryAssignBody_array env rec a val ha hv]
  simp only [checkOverLength, haL, ht, hN, hnl, if_false, iterateAndAssign,
    buildComposite, liftPanic, GetElemType, Value.IsValid, Value.Type, IsTypeValueElemable,
    GetKind_eq, ha, IsKindTypeElemable, Typ.Elem, ArrayOf, New, Value.Elem, zero,
    List.range_eq_range', List.nil_append, Nat.sub_zero]
  simp only [Option.isSome_some, Bool.not_true, Bool.false_eq_true, if_false, decide_True,
    decide_False, Bool.or_true, Bool.true_or, Bool.or_false, if_true, reduceCtorEq]
  rw [zero_array]
  cases iterateArray rec val (List.range' 0 N)
      ⟨some (.array L e), .seq (List.replicate L (zero e)), true⟩ with
  | error s => cases s <;> rfl
  | ok built =>
    simp only [Flow.ofSet]
    cases a.Set built <;> rfl

/-- A fresh element that `AssignReflect` fills is not behind a pointer or an
interface (their zero value unwraps to the invalid handle), so the data the call
reports is the data of the element itself. -/
theorem storeChildElem_fresh (env : Env) (depth : Nat) (e : Typ) (src : reflect.Value) (dd : Data)
    (h : AssignReflect env depth ⟨some e, zero e, true⟩ src = some ⟨none, dd⟩) :
    (storeChildElem ⟨some e, zero e, true⟩ dd).data = dd := by
  cases depth with
  | zero => simp [AssignReflect] at h
  | succ n =>
    cases e with
    | ptr e2 =>
      simp [AssignReflect, assignReflectBody, GetChildElem, Value.IsValid, GetKind_eq,
        Value.Kind, Typ.Kind, IsKindValueElemable, Value.Elem, zero, Value.zeroValue,
        checkAssigner, getErrIsValid] at h
    | iface =>
      simp [AssignReflect, assignReflectBody, GetChildElem, Value.IsValid, GetKind_eq,
        Value.Kind, Typ.Kind, IsKindValueElemable, Value.Elem, zero, Value.zeroValue,
        checkAssigner, getErrIsValid] at h
    | _ => simp [storeChildElem]

/-- C3 at the input of the specification: coercing the int slice [1,2,3] into
a settable, empty int slice.  The first element is coerced, then
`reflect.AppendSlice(emptySlice, elemVal)` panics because `elemVal` is an int
and not a slice; `tryAssign` recovers the `*reflect.ValueError` and the
destination is left empty. -/
theorem AssignReflect_slice_of_three :
    AssignReflect env64 2 ⟨some (.slice (.basic .Int)), .seq [], true⟩
        ⟨some (.slice (.basic .Int)), .seq [.int 1, .int 2, .int 3], false⟩ =
      some ⟨some (.PanicError (.valueError "reflect.AppendSlice" .Int)), .seq []⟩ := by
  rfl

theorem isValid_of_seq_kind {val : reflect.Value} (hv : val.Kind = .Array ∨ val.Kind = .Slice) :
    val.IsValid = true := by
  unfold Value.IsValid
  unfold Value.Kind at hv
  cases ht : val.typ <;> simp [ht] at hv ⊢

theorem isValid_of_typ {a : reflect.Value} {t : Typ} (ht : a.typ = some t) : a.IsValid = true := by
  simp [Value.IsValid, ht]

/-- C4, as stated, fails: a [2][1]int destination and a [1][2]int source have
N = 1 <= L = 2, yet the call returns OverflowedLength, raised by the nested
element (a [1]int receiving a [2]int). -/
theorem AssignReflect_nested_overflowedLength :
    AssignReflect env64 2
        ⟨some (.array 2 (.array 1 (.basic .Int))), .seq [.seq [.int 0], .seq [.int 0]], true⟩
        ⟨some (.array 1 (.array 2 (.basic .Int))), .seq [.seq [.int 1, .int 2]], false⟩ =
      some ⟨some .ErrOverflowedLength, .seq [.seq [.int 0], .seq [.int 0]]⟩ ∧
    Value.Len ⟨some (.array 2 (.array 1 (.basic .Int))), .seq [.seq [.int 0], .seq [.int 0]],
        true⟩ = .ok 2 ∧
    Value.Len ⟨some (.array 1 (.array 2 (.basic .Int))), .seq [.seq [.int 1, .int 2]],
        false⟩ = .ok 1 :=
  ⟨rfl, rfl, rfl⟩

/-- C4, amended: for a settable array destination of length L and an array or
slice source of length N, AssignReflect fails with OverflowedLength, leaving the
destination as it was, whenever N > L; when N <= L the destination's own length
check passes, and OverflowedLength is returned only if the coercion of some
source element into a fresh element of the destination returns it. -/
theorem AssignReflect_array_overflowedLength (env : Env) (depth : Nat) (assigner val :
    reflect.Value)
    (L N : Nat) (e : Typ)
    (hset : (GetChildElem assigner).CanSet = true)
    (ht : (GetChildElem assigner).typ = some (.array L e))
    (hv : GetKind (GetChildElem val) = .Array ∨ GetKind (GetChildElem val) = .Slice)
    (hN : (GetChildElem val).Len = .ok N) :
    (L < N → AssignReflect env (depth + 1) assigner val =
        some ⟨some .ErrOverflowedLength, (GetChildElem assigner).data⟩) ∧
    (N ≤ L → ∀ out, AssignReflect env (depth + 1) assigner val = some out →
      out.err = some .ErrOverflowedLength →
      ∃ i src dd, i < N ∧ (GetChildElem val).Index i = .ok src ∧
        AssignReflect env depth ⟨some e, zero e, true⟩ src =
          some ⟨some .ErrOverflowedLength, dd⟩) := by
  simp only [GetKind_eq] at hv
  rw [AssignReflect_eq_tryAssign env depth assigner val (isValid_of_typ ht) hset
    (isValid_of_seq_kind hv)]
  refine ⟨fun h => tryAssign_array_overflow env _ _ _ L N e ht hv hN h, ?_⟩
  intro hNL out hout herr
  rw [tryAssign_array_fits env _ _ _ L N e ht hv hN hNL] at hout
  cases hloop : iterateArray (AssignReflect env depth) (GetChildElem val) (List.range' 0 N)
      ⟨some (.array L e), .seq ([] ++ List.replicate (L - 0) (zero e)), true⟩ with
  | error s =>
    rw [hloop] at hout
    cases s with
    | exhausted => simp at hout
    | panic p =>
      simp only [Option.some.injEq] at hout
      subst hout
      simp only [Option.some.injEq] at herr
      exact absurd herr (recovered_ne_overflowedLength p)
    | ret err =>
      simp only [Option.some.injEq] at hout
      subst hout
      simp only [Option.some.injEq] at herr
      subst herr
      obtain ⟨i, src, dd, _, hi, h1, h2⟩ :=
        iterateArray_error_origin (AssignReflect env depth) (GetChildElem val) L e _ N 0 []
          rfl (by omega) hloop
      exact ⟨i, src, dd, by omega, h1, h2⟩
  | ok built =>
    rw [hloop] at hout
    cases hs : (GetChildElem assigner).Set built with
    | ok a2 =>
      simp only [hs, Option.some.injEq] at hout
      subst hout
      simp at herr
    | error p =>
      simp only [hs, Option.some.injEq] at hout
      subst hout
      simp only [Option.some.injEq] at herr
      exact absurd herr (recovered_ne_overflowedLength p)

/-- C4 amended, at a concrete input: a [1]int destination holding 5 and the int
slice [1,2]. -/
theorem AssignReflect_array_overflowedLength_witness :
    (1 < 2 → AssignReflect env64 2 ⟨some (.array 1 (.basic .Int)), .seq [.int 5], true⟩
        ⟨some (.slice (.basic .Int)), .seq [.int 1, .int 2], false⟩ =
        some ⟨some .ErrOverflowedLength,
          (GetChildElem ⟨some (.array 1 (.basic .Int)), .seq [.int 5], true⟩).data⟩) ∧
    (2 ≤ 1 → ∀ out, AssignReflect env64 2
        ⟨some (.array 1 (.basic .Int)), .seq [.int 5], true⟩
        ⟨some (.slice (.basic .Int)), .seq [.int 1, .int 2], false⟩ = some out →
      out.err = some .ErrOverflowedLength →
      ∃ i src dd, i < 2 ∧
        (GetChildElem ⟨some (.slice (.basic .Int)), .seq [.int 1, .int 2], false⟩).Index i =
          .ok src ∧
        AssignReflect env64 1 ⟨some (.basic .Int), zero (.basic .Int), true⟩ src =
          some ⟨some .ErrOverflowedLength, dd⟩) :=
  AssignReflect_array_overflowedLength env64 1
    ⟨some (.array 1 (.basic .Int)), .seq [.int 5], true⟩
    ⟨some (.slice (.basic .Int)), .seq [.int 1, .int 2], false⟩ 1 2 (.basic .Int)
    rfl rfl (Or.inr rfl) rfl

/-- C5: for a settable array destination of length L and an array or slice
source of length N <= L whose elements each coerce successfully (element i
giving `d i`), AssignReflect returns no error and the destination holds the
coerced elements at indices 0..N-1, in order, and the zero value of the element
type at indices N..L-1, whatever it held before. -/
theorem AssignReflect_array_fill (env : Env) (depth : Nat) (assigner val : reflect.Value)
    (L N : Nat) (e : Typ) (d : Nat → Data)
    (hset : (GetChildElem assigner).CanSet = true)
    (ht : (GetChildElem assigner).typ = some (.array L e))
    (hv : GetKind (GetChildElem val) = .Array ∨ GetKind (GetChildElem val) = .Slice)
    (hN : (GetChildElem val).Len = .ok N) (hNL : N ≤ L)
    (helem : ∀ i, i < N → ∃ src, (GetChildElem val).Index i = .ok src ∧
      AssignReflect env depth ⟨some e, zero e, true⟩ src = some ⟨none, d i⟩) :
    AssignReflect env (depth + 1) assigner val =
      some ⟨none, .seq ((List.range N).map d ++ List.replicate (L - N) (zero e))⟩ := by
  simp only [GetKind_eq] at hv
  rw [AssignReflect_eq_tryAssign env depth assigner val (isValid_of_typ ht) hset
    (isValid_of_seq_kind hv), tryAssign_array_fits env _ _ _ L N e ht hv hN hNL]
  have hloop := iterateArray_ok (AssignReflect env depth) (GetChildElem val) L e d N 0 []
    rfl (by omega) (fun i _ hi => by
      obtain ⟨src, h1, h2⟩ := helem i (by omega)
      exact ⟨src, h1, h2, storeChildElem_fresh env depth e src (d i) h2⟩)
  rw [hloop]
  have hcan : (GetChildElem assigner).canSet = true := hset
  simp [Value.Set, ht, hcan, beq_refl, List.range_eq_range']

/-- C5 at a concrete input: a [3]int destination holding [7,8,9] receives the
int slice [1,2] and ends as [1,2,0]. -/
theorem AssignReflect_array_fill_witness :
    AssignReflect env64 2 ⟨some (.array 3 (.basic .Int)), .seq [.int 7, .int 8, .int 9], true⟩
        ⟨some (.slice (.basic .Int)), .seq [.int 1, .int 2], false⟩ =
      some ⟨none, .seq ((List.range 2).map (fun i => Data.int (i + 1)) ++
        List.replicate (3 - 2) (zero (.basic .Int)))⟩ :=
  AssignReflect_array_fill env64 1
    ⟨some (.array 3 (.basic .Int)), .seq [.int 7, .int 8, .int 9], true⟩
    ⟨some (.slice (.basic .Int)), .seq [.int 1, .int 2], false⟩ 3 2 (.basic .Int)
    (fun i => Data.int (i + 1)) rfl rfl (Or.inr rfl) rfl (by decide)
    (fun i hi => by
      match i, hi with
      | 0, _ => exact ⟨_, rfl, rfl⟩
      | 1, _ => exact ⟨_, rfl, rfl⟩)

/-- The placeholder branches of `tryAssign` (channel, function, map, struct)
return nil and write nothing, whatever the source is. -/
theorem tryAssign_placeholder (env : Env) (rec : Callee)
    (a val : reflect.Value)
    (hk : a.Kind = .Chan ∨ a.Kind = .Func ∨ a.Kind = .Map ∨ a.Kind = .Struct) :
    tryAssign env rec a val = some ⟨none, a.data⟩ := by
  unfold tryAssign tryAssignBody
  simp only [GetKind_eq]
  rcases hk with h | h | h | h <;> simp [h]

/-- C6 at a concrete input: a settable struct with one string field, holding
the empty string, is given a struct holding "Hi!".  `AssignReflect` returns nil
(not UnimplementedAssign) and the destination still holds the empty string. -/
theorem AssignReflect_struct_silent :
    AssignReflect env64 1 ⟨some (.struct [.basic .String]), .struct [.str []], true⟩
        ⟨some (.struct [.basic .String]), .struct [.str [72, 105, 33]], false⟩ =
      some ⟨none, .struct [.str []]⟩ := by
  rfl

/-- C8: AssignReflect checks its preconditions in a fixed order and returns an
error instead of panicking: an invalid destination (after the unwrap) gives the
invalid-value error; else a destination that cannot be set gives
ErrAssignerCantSet; else an invalid source gives the invalid-value error.  In
the three cases the destination is left as it was, and the destination is
judged before the source. -/
theorem AssignReflect_preconditions (env : Env) (depth : Nat)
    (assigner val : reflect.Value) :
    ((GetChildElem assigner).IsValid = false →
      AssignReflect env (depth + 1) assigner val =
        some ⟨getErrIsValid (GetChildElem assigner), (GetChildElem assigner).data⟩ ∧
      getErrIsValid (GetChildElem assigner) = some .ErrInvalidValue) ∧
    ((GetChildElem assigner).IsValid = true → (GetChildElem assigner).CanSet = false →
      AssignReflect env (depth + 1) assigner val =
        some ⟨some .ErrAssignerCantSet, (GetChildElem assigner).data⟩) ∧
    ((GetChildElem assigner).IsValid = true → (GetChildElem assigner).CanSet = true →
      (GetChildElem val).IsValid = false →
      AssignReflect env (depth + 1) assigner val =
        some ⟨getErrIsValid (GetChildElem val), (GetChildElem assigner).data⟩ ∧
      getErrIsValid (GetChildElem val) = some .ErrInvalidValue) := by
  refine ⟨fun h => ?_, fun h1 h2 => ?_, fun h1 h2 h3 => ?_⟩
  · simp [AssignReflect, assignReflectBody, checkAssigner, getErrIsValid, h]
  · simp [AssignReflect, assignReflectBody, checkAssigner, getErrIsValid, h1, h2]
  · simp [AssignReflect, assignReflectBody, checkAssigner, getErrIsValid, h1, h2, h3]

/-- C8 at concrete inputs: the zero handle as destination and as source, a nil
pointer as destination, a destination that cannot be set with an absent
source. -/
theorem AssignReflect_preconditions_witness :
    AssignReflect env64 1 reflect.Value.zeroValue reflect.Value.zeroValue =
        some ⟨some .ErrInvalidValue, .nil⟩ ∧
      AssignReflect env64 1 ⟨some (.ptr (.basic .Int)), .nil, false⟩
        ⟨some (.basic .Int), .int 1, false⟩ = some ⟨some .ErrInvalidValue, .nil⟩ ∧
      AssignReflect env64 1 ⟨some (.basic .Int), .int 4, false⟩ reflect.Value.zeroValue =
        some ⟨some .ErrAssignerCantSet, .int 4⟩ ∧
      AssignReflect env64 1 ⟨some (.basic .Int), .int 4, true⟩ reflect.Value.zeroValue =
        some ⟨some .ErrInvalidValue, .int 4⟩ :=
  ⟨((AssignReflect_preconditions env64 0 reflect.Value.zeroValue
      reflect.Value.zeroValue).1 rfl).1,
    ((AssignReflect_preconditions env64 0 ⟨some (.ptr (.basic .Int)), .nil, false⟩
      ⟨some (.basic .Int), .int 1, false⟩).1 rfl).1,
    (AssignReflect_preconditions env64 0 ⟨some (.basic .Int), .int 4, false⟩
      reflect.Value.zeroValue).2.1 rfl rfl,
    ((AssignReflect_preconditions env64 0 ⟨some (.basic .Int), .int 4, true⟩
      reflect.Value.zeroValue).2.2 rfl rfl rfl).1⟩

theorem tryAssignBody_string_source (env : Env)
    (rec : Callee) (a val : reflect.Value)
    (ha : a.Kind = .Array ∨ a.Kind = .Slice) (hv : val.Kind = .String) :
    tryAssignBody env rec a val = some (iterateAndAssignString a val) := by
  unfold tryAssignBody
  simp only [GetKind_eq]
  rcases ha with ha | ha <;> simp [ha, hv]

/-- C9: for a settable byte-sequence destination (a slice, or an array, of
uint8) holding the L elements `old` and a string source whose bytes `bs` number
at most L, AssignReflect returns no error and the destination afterwards holds
the bytes of the string in order, followed by its old elements from index
len(s) on. -/
theorem AssignReflect_string_bytes (env : Env) (depth : Nat) (assigner val : reflect.Value)
    (old : List Data) (bs : List Nat)
    (hset : (GetChildElem assigner).CanSet = true)
    (ht : (GetChildElem assigner).typ = some (.slice (.basic .Uint8)) ∨
      (GetChildElem assigner).typ = some (.array old.length (.basic .Uint8)))
    (hold : (GetChildElem assigner).data = .seq old)
    (hsrc : (GetChildElem val).typ = some (.basic .String))
    (hbs : (GetChildElem val).data = .str bs)
    (hlen : bs.length ≤ old.length) :
    AssignReflect env (depth + 1) assigner val =
      some ⟨none, .seq (bs.map Data.uint ++ old.drop bs.length)⟩ := by
  have hcan : (GetChildElem assigner).canSet = true := hset
  have hvk : (GetChildElem val).Kind = .String := by
    simp [reflect.Value.Kind, hsrc, Typ.Kind, Basic.Kind]
  rcases ht with ht | ht
  · have hak : (GetChildElem assigner).Kind = .Slice := by
      simp [reflect.Value.Kind, ht, Typ.Kind]
    rw [AssignReflect_eq_tryAssign env depth assigner val (isValid_of_typ ht) hset
      (isValid_of_typ hsrc)]
    unfold tryAssign
    rw [tryAssignBody_string_source env _ _ _ (Or.inr hak) hvk]
    simp [iterateAndAssignString, GetElemKind, reflect.Value.IsValid, GetKind_eq, hak,
      IsKindTypeElemable, reflect.Value.Type, ht, Typ.Elem, Typ.Kind, Basic.Kind, Copy,
      copyFrom, hsrc, hbs, copyElems, reflect.Value.elems, hold, Flow.ofSet,
      Nat.min_eq_right hlen, List.take_of_length_le]
  · have hak : (GetChildElem assigner).Kind = .Array := by
      simp [reflect.Value.Kind, ht, Typ.Kind]
    rw [AssignReflect_eq_tryAssign env depth assigner val (isValid_of_typ ht) hset
      (isValid_of_typ hsrc)]
    unfold tryAssign
    rw [tryAssignBody_string_source env _ _ _ (Or.inl hak) hvk]
    simp [iterateAndAssignString, GetElemKind, reflect.Value.IsValid, GetKind_eq, hak,
      IsKindTypeElemable, reflect.Value.Type, ht, Typ.Elem, Typ.Kind, Basic.Kind, Copy,
      copyFrom, hsrc, hbs, copyElems, reflect.Value.elems, hold, Flow.ofSet, hcan,
      Nat.min_eq_right hlen, List.take_of_length_le]

/-- C9 at the input of the specification: a byte slice of length 5 and the
string "hello". -/
theorem AssignReflect_string_bytes_witness :
    AssignReflect env64 1
        ⟨some (.slice (.basic .Uint8)), .seq [.uint 0, .uint 0, .uint 0, .uint 0, .uint 0],
          true⟩
        ⟨some (.basic .String), .str [104, 101, 108, 108, 111], false⟩ =
      some ⟨none, .seq ([104, 101, 108, 108, 111].map Data.uint ++
        [Data.uint 0, .uint 0, .uint 0, .uint 0, .uint 0].drop
          [104, 101, 108, 108, 111].length)⟩ :=
  AssignReflect_string_bytes env64 0
    ⟨some (.slice (.basic .Uint8)), .seq [.uint 0, .uint 0, .uint 0, .uint 0, .uint 0], true⟩
    ⟨some (.basic .String), .str [104, 101, 108, 108, 111], false⟩
    [.uint 0, .uint 0, .uint 0, .uint 0, .uint 0] [104, 101, 108, 108, 111]
    rfl (Or.inl rfl) rfl rfl rfl (by decide)

/-- The slice branch when the first source element fails: its error is
returned before anything is appended. -/
theorem tryAssign_slice_first_fails (env : Env)
    (rec : Callee) (a val : reflect.Value) (e : Typ)
    (n : Nat) (srcf : reflect.Value) (err : Err) (dd : Data)
    (ht : a.typ = some (.slice e)) (hv : val.Kind = .Array ∨ val.Kind = .Slice)
    (hN : val.Len = .ok (n + 1)) (h1 : val.Index 0 = .ok srcf)
    (h2 : rec ⟨some e, zero e, true⟩ srcf = some ⟨some err, dd⟩) :
    tryAssign env rec a val = some ⟨some err, a.data⟩ := by
  have ha : a.Kind = .Slice := by simp [reflect.Value.Kind, ht, Typ.Kind]
  unfold tryAssign
  rw [tryAssignBody_slice env rec a val ha hv]
  simp only [iterateAndAssign, buildComposite, reflect.Value.Type, ht, liftPanic, hN,
    MakeSlice, List.range_succ_eq_map, iterateSlice, GetElemType, reflect.Value.IsValid,
    IsTypeValueElemable, GetKind_eq, ha, IsKindTypeElemable, Typ.Elem, New,
    reflect.Value.Elem, h1]
  simp [h2]

/-- C7, as stated, fails: a [1]unsafe.Pointer destination and the int slice
[1,2].  The coercion of the first element fails with UnimplementedAssign, yet
the call returns OverflowedLength: the length check comes before any element. -/
theorem AssignReflect_length_before_elements :
    AssignReflect env64 2 ⟨some (.array 1 (.basic .UnsafePointer)), .seq [.nil], true⟩
        ⟨some (.slice (.basic .Int)), .seq [.int 1, .int 2], false⟩ =
      some ⟨some .ErrOverflowedLength, .seq [.nil]⟩ ∧
    reflect.Value.Index ⟨some (.slice (.basic .Int)), .seq [.int 1, .int 2], false⟩ 0 =
      .ok ⟨some (.basic .Int), .int 1, true⟩ ∧
    AssignReflect env64 1 ⟨some (.basic .UnsafePointer), zero (.basic .UnsafePointer), true⟩
        ⟨some (.basic .Int), .int 1, true⟩ =
      some ⟨some .ErrUnimplementedAssign, .nil⟩ :=
  ⟨rfl, rfl, rfl⟩

/-- C7, amended: for a settable array destination of length L and an array or
slice source of length N <= L, and for a settable slice destination when the
failing element is the first one: if the elements before index f coerce and the
coercion of element f fails with `err`, AssignReflect returns `err` and the
destination holds exactly the value it held before the call. -/
theorem AssignReflect_first_failing_element (env : Env) (depth : Nat)
    (assigner val : reflect.Value) (L N f : Nat) (e : Typ) (d : Nat → Data)
    (srcf : reflect.Value) (err : Err) (dd : Data)
    (hset : (GetChildElem assigner).CanSet = true)
    (ht : ((GetChildElem assigner).typ = some (.array L e) ∧ N ≤ L) ∨
      ((GetChildElem assigner).typ = some (.slice e) ∧ f = 0))
    (hv : GetKind (GetChildElem val) = .Array ∨ GetKind (GetChildElem val) = .Slice)
    (hN : (GetChildElem val).Len = .ok N) (hf : f < N)
    (hbefore : ∀ i, i < f → ∃ src, (GetChildElem val).Index i = .ok src ∧
      AssignReflect env depth ⟨some e, zero e, true⟩ src = some ⟨none, d i⟩)
    (hfail1 : (GetChildElem val).Index f = .ok srcf)
    (hfail2 : AssignReflect env depth ⟨some e, zero e, true⟩ srcf = some ⟨some err, dd⟩) :
    AssignReflect env (depth + 1) assigner val =
      some ⟨some err, (GetChildElem assigner).data⟩ := by
  simp only [GetKind_eq] at hv
  rcases ht with ⟨ht, hNL⟩ | ⟨ht, hf0⟩
  · rw [AssignReflect_eq_tryAssign env depth assigner val (isValid_of_typ ht) hset
      (isValid_of_seq_kind hv), tryAssign_array_fits env _ _ _ L N e ht hv hN hNL]
    have hloop := iterateArray_first_error (AssignReflect env depth) (GetChildElem val) L e d f
      srcf err dd N 0 [] rfl (by omega) (by omega) (by omega)
      (fun i _ hi => hbefore i hi) hfail1 hfail2
    rw [hloop]
  · subst hf0
    obtain ⟨n, rfl⟩ : ∃ n, N = n + 1 := ⟨N - 1, by omega⟩
    rw [AssignReflect_eq_tryAssign env depth assigner val (isValid_of_typ ht) hset
      (isValid_of_seq_kind hv)]
    exact tryAssign_slice_first_fails env _ _ _ e n srcf err dd ht hv hN hfail1 hfail2

/-- C7 amended, at a concrete input: a [2]unsafe.Pointer destination and the
int slice [1,2]; the first element fails with UnimplementedAssign. -/
theorem AssignReflect_first_failing_element_witness :
    AssignReflect env64 2 ⟨some (.array 2 (.basic .UnsafePointer)), .seq [.nil, .nil], true⟩
        ⟨some (.slice (.basic .Int)), .seq [.int 1, .int 2], false⟩ =
      some ⟨some .ErrUnimplementedAssign,
        (GetChildElem
          ⟨some (.array 2 (.basic .UnsafePointer)), .seq [.nil, .nil], true⟩).data⟩ :=
  AssignReflect_first_failing_element env64 1
    ⟨some (.array 2 (.basic .UnsafePointer)), .seq [.nil, .nil], true⟩
    ⟨some (.slice (.basic .Int)), .seq [.int 1, .int 2], false⟩ 2 2 0 (.basic .UnsafePointer)
    (fun _ => .nil) ⟨some (.basic .Int), .int 1, true⟩ .ErrUnimplementedAssign .nil
    rfl (Or.inl ⟨rfl, le_refl 2⟩) (Or.inr rfl) rfl (by decide)
    (fun i hi => absurd hi (Nat.not_lt_zero i)) rfl rfl

theorem emptyLoop_eq {σ : Type} (count : Nat) (st : σ) : emptyLoop count st = st := by
  unfold emptyLoop
  induction List.range count with
  | nil => rfl
  | cons x xs ih => simp [ih]

/-- The struct iteration never calls a callback: on a wrapper over a struct
the caller's state comes back as it went in, whatever the callbacks are. -/
theorem IterateStruct_ignores_callbacks {σ : Type} (s : reflecthelper.Value)
    (fns : List (IterateStructFunc σ)) (st : σ) (fs : List Typ)
    (ht : s.Value.typ = some (.struct fs)) :
    s.IterateStruct fns st = .ok (s, st) := by
  unfold reflecthelper.Value.IterateStruct reflecthelper.Value.iterateStruct NumField
  simp [ht, emptyLoop_eq]

/-- C10 at the input of the specification: a wrapper over a struct with two
fields and one callback that counts its calls.  After `IterateStruct` the count
is 0, not 2: the loop over the fields has no body. -/
theorem IterateStruct_two_fields_no_call :
    (CastStruct ⟨some (.struct [.basic .Int, .basic .String]), .struct [.int 1, .str [120]],
        false⟩).IterateStruct [fun _ _ (n : Nat) => .ok (n + 1)] 0 =
      .ok (CastStruct ⟨some (.struct [.basic .Int, .basic .String]),
        .struct [.int 1, .str [120]], false⟩, 0) ∧
    NumField (CastStruct ⟨some (.struct [.basic .Int, .basic .String]),
        .struct [.int 1, .str [120]], false⟩).Value = .ok 2 :=
  ⟨rfl, rfl⟩

/-! ### The depth bound is never hit when it exceeds the nesting of the destination -/

theorem iterateArray_not_exhausted (rec : Callee)
    (val : reflect.Value) (L : Nat) (e : Typ)
    (hrec : ∀ slot src : reflect.Value, slot.typ = some e → ∃ out, rec slot src = some out) :
    ∀ (idxs : List Nat) (acc : reflect.Value), acc.typ = some (.array L e) →
      iterateArray rec val idxs acc ≠ .error .exhausted := by
  intro idxs
  induction idxs with
  | nil =>
    intro acc _
    simp [iterateArray]
  | cons index rest ih =>
    intro acc hacc
    simp only [iterateArray]
    cases hslot : acc.Index index with
    | error p => simp [liftPanic]
    | ok slot =>
      have hst : slot.typ = some e := by
        simp only [reflect.Value.Index, hacc] at hslot
        split at hslot
        · simp only [Except.ok.injEq] at hslot
          rw [← hslot]
        · simp at hslot
      cases hsrc : val.Index index with
      | error p => simp [liftPanic]
      | ok src =>
        obtain ⟨out, hout⟩ := hrec slot src hst
        obtain ⟨oe, od⟩ := out
        cases oe with
        | some e2 => simp [liftPanic, hout]
        | none =>
          simp only [liftPanic, hout]
          exact ih _ hacc

theorem iterateSlice_not_exhausted (rec : Callee)
    (assigner val : reflect.Value) (e : Typ) (ht : assigner.typ = some (.slice e))
    (hrec : ∀ slot src : reflect.Value, slot.typ = some e → ∃ out, rec slot src = some out) :
    ∀ (idxs : List Nat) (emptySlice : reflect.Value),
      iterateSlice rec assigner val idxs emptySlice ≠ .error .exhausted := by
  have ha : assigner.Kind = .Slice := by simp [reflect.Value.Kind, ht, Typ.Kind]
  intro idxs
  induction idxs with
  | nil =>
    intro emptySlice
    simp [iterateSlice]
  | cons index rest ih =>
    intro emptySlice
    simp only [iterateSlice, GetElemType, reflect.Value.IsValid, IsTypeValueElemable,
      GetKind_eq, ha, IsKindTypeElemable, reflect.Value.Type, ht, Typ.Elem, New,
      reflect.Value.Elem, liftPanic]
    simp only [Option.isSome_some, Bool.not_true, Bool.false_eq_true, if_false, decide_True,
      decide_False, Bool.or_true, Bool.true_or, Bool.or_false, if_true, reduceCtorEq]
    cases hsrc : val.Index index with
    | error p => simp
    | ok src =>
      obtain ⟨out, hout⟩ := hrec ⟨some e, zero e, true⟩ src rfl
      obtain ⟨oe, od⟩ := out
      cases oe with
      | some e2 => simp [hout]
      | none =>
        simp only [hout]
        cases AppendSlice emptySlice (storeChildElem ⟨some e, zero e, true⟩ od) with
        | error p => simp
        | ok appended =>
          cases hset : emptySlice.Set appended with
          | error p => simp [hset]
          | ok es =>
            simp only [hset]
            exact ih es

theorem iterateAndAssign_returns (rec : Callee)
    (a val : reflect.Value) (isSlice : Bool)
    (h : buildComposite rec a val isSlice ≠ .error .exhausted) :
    ∃ fl, iterateAndAssign rec a val isSlice = some fl := by
  unfold iterateAndAssign
  cases hb : buildComposite rec a val isSlice with
  | ok built => exact ⟨_, rfl⟩
  | error s =>
    cases s with
    | ret err => exact ⟨_, rfl⟩
    | panic p => exact ⟨_, rfl⟩
    | exhausted => exact absurd hb h

theorem buildComposite_not_exhausted (rec : Callee)
    (a val : reflect.Value) (isSlice : Bool) (e : Typ)
    (ht : (isSlice = true ∧ a.typ = some (.slice e)) ∨
      (isSlice = false ∧ ∃ L, a.typ = some (.array L e)))
    (hrec : ∀ slot src : reflect.Value, slot.typ = some e → ∃ out, rec slot src = some out) :
    buildComposite rec a val isSlice ≠ .error .exhausted := by
  rcases ht with ⟨hs, ht⟩ | ⟨hs, L, ht⟩
  · subst hs
    simp only [buildComposite, reflect.Value.Type, ht, liftPanic, if_true]
    cases val.Len with
    | error p => simp
    | ok n =>
      simp only [MakeSlice, Nat.not_lt_zero, if_false]
      exact iterateSlice_not_exhausted rec a val e ht hrec _ _
  · subst hs
    have ha : a.Kind = .Array := by simp [reflect.Value.Kind, ht, Typ.Kind]
    have haL : a.Len = .ok L := by simp [reflect.Value.Len, ht]
    simp only [buildComposite, haL, liftPanic, GetElemType, reflect.Value.IsValid,
      reflect.Value.Type, IsTypeValueElemable, GetKind_eq, ha, IsKindTypeElemable, ht,
      Typ.Elem, ArrayOf, New, reflect.Value.Elem]
    simp only [Option.isSome_some, Bool.not_true, Bool.false_eq_true, if_false, decide_True,
      decide_False, Bool.or_true, Bool.true_or, Bool.or_false, if_true, reduceCtorEq]
    cases val.Len with
    | error p => simp
    | ok n => exact iterateArray_not_exhausted rec val L e hrec _ _ rfl

theorem iterateAndAssign_kind_returns (rec : Callee)
    (a val : reflect.Value) (hk : a.Kind = .Array ∨ a.Kind = .Slice)
    (hrec : ∀ e, (a.typ = some (.slice e) ∨ ∃ L, a.typ = some (.array L e)) →
      ∀ slot src : reflect.Value, slot.typ = some e → ∃ out, rec slot src = some out) :
    ∃ fl, iterateAndAssign rec a val (decide (a.Kind = .Slice)) = some fl := by
  apply iterateAndAssign_returns
  rcases hk with hk | hk
  · obtain ⟨L, e, ht⟩ := typ_of_kind_array hk
    exact buildComposite_not_exhausted rec a val _ e (Or.inr ⟨by simp [hk], L, ht⟩)
      (hrec e (Or.inr ⟨L, ht⟩))
  · obtain ⟨e, ht⟩ := typ_of_kind_slice hk
    exact buildComposite_not_exhausted rec a val _ e (Or.inl ⟨by simp [hk], ht⟩)
      (hrec e (Or.inl ht))

theorem tryAssignBody_returns (env : Env)
    (rec : Callee) (a val : reflect.Value)
    (hrec : ∀ e, (a.typ = some (.slice e) ∨ ∃ L, a.typ = some (.array L e)) →
      ∀ slot src : reflect.Value, slot.typ = some e → ∃ out, rec slot src = some out) :
    ∃ fl, tryAssignBody env rec a val = some fl := by
  unfold tryAssignBody
  simp only [GetKind_eq]
  split
  all_goals repeat' (first | exact ⟨_, rfl⟩ | split)
  all_goals first
    | exact iterateAndAssign_kind_returns rec a val (Or.inl (by assumption)) hrec
    | exact iterateAndAssign_kind_returns rec a val (Or.inr (by assumption)) hrec

/-- With a recursive call that returns on every element of the destination,
`tryAssign` returns. -/
theorem tryAssign_returns (env : Env)
    (rec : Callee) (a val : reflect.Value)
    (hrec : ∀ e, (a.typ = some (.slice e) ∨ ∃ L, a.typ = some (.array L e)) →
      ∀ slot src : reflect.Value, slot.typ = some e → ∃ out, rec slot src = some out) :
    ∃ out, tryAssign env rec a val = some out := by
  obtain ⟨fl, hfl⟩ := tryAssignBody_returns env rec a val hrec
  unfold tryAssign
  rw [hfl]
  cases fl <;> exact ⟨_, rfl⟩

theorem nest_GetChildElem (a : reflect.Value) (t2 : Typ)
    (hc : checkAssigner (GetChildElem a) = none) (ht2 : (GetChildElem a).typ = some t2) :
    ∃ t, a.typ = some t ∧ nest t2 ≤ nest t := by
  obtain ⟨ty, d, c⟩ := a
  cases ty with
  | none => simp [GetChildElem, reflect.Value.IsValid] at ht2
  | some t =>
    cases t with
    | ptr e =>
      cases d <;>
        simp [GetChildElem, reflect.Value.IsValid, GetKind_eq, reflect.Value.Kind, Typ.Kind,
          IsKindValueElemable, reflect.Value.Elem, reflect.Value.zeroValue] at ht2 ⊢
      subst ht2
      simp [nest]
    | iface =>
      cases d <;>
        simp [GetChildElem, reflect.Value.IsValid, GetKind_eq, reflect.Value.Kind, Typ.Kind,
          IsKindValueElemable, reflect.Value.Elem, reflect.Value.zeroValue, checkAssigner,
          getErrIsValid, reflect.Value.CanSet] at ht2 hc
    | basic b =>
      cases b <;>
        simp [GetChildElem, reflect.Value.IsValid, GetKind_eq, reflect.Value.Kind, Typ.Kind,
          Basic.Kind, IsKindValueElemable] at ht2 ⊢ <;> simp [← ht2]
    | _ =>
      simp [GetChildElem, reflect.Value.IsValid, GetKind_eq, reflect.Value.Kind, Typ.Kind,
        IsKindValueElemable] at ht2 ⊢
      simp [← ht2]

/-- AssignReflect returns whenever the depth bound exceeds the nesting of the
destination's type: the bound is a device of the embedding, not a way for the
function to fail. -/
theorem AssignReflect_returns (env : Env) :
    ∀ (depth : Nat) (a v : reflect.Value), (∀ t, a.typ = some t → nest t ≤ depth) →
      ∃ out, AssignReflect env (depth + 1) a v = some out := by
  intro depth
  induction depth with
  | zero =>
    intro a v hb
    simp only [AssignReflect, assignReflectBody]
    cases hc : checkAssigner (GetChildElem a) with
    | some err => exact ⟨_, rfl⟩
    | none =>
      cases getErrIsValid (GetChildElem v) with
      | some err => exact ⟨_, rfl⟩
      | none =>
        apply tryAssign_returns
        intro e he
        exfalso
        rcases he with he | ⟨L, he⟩
        · obtain ⟨t, h1, h2⟩ := nest_GetChildElem a _ hc he
          have := hb t h1
          simp [nest] at h2
          omega
        · obtain ⟨t, h1, h2⟩ := nest_GetChildElem a _ hc he
          have := hb t h1
          simp [nest] at h2
          omega
  | succ d ih =>
    intro a v hb
    simp only [AssignReflect, assignReflectBody]
    cases hc : checkAssigner (GetChildElem a) with
    | some err => exact ⟨_, rfl⟩
    | none =>
      cases getErrIsValid (GetChildElem v) with
      | some err => exact ⟨_, rfl⟩
      | none =>
        apply tryAssign_returns
        intro e he slot src hslot
        have hne : nest e ≤ d := by
          rcases he with he | ⟨L, he⟩
          · obtain ⟨t, h1, h2⟩ := nest_GetChildElem a _ hc he
            have := hb t h1
            simp [nest] at h2
            omega
          · obtain ⟨t, h1, h2⟩ := nest_GetChildElem a _ hc he
            have := hb t h1
            simp [nest] at h2
            omega
        have := ih slot src (fun t ht => by
          rw [hslot] at ht
          simp only [Option.some.injEq] at ht
          subst ht
          exact hne)
        simpa [AssignReflect] using this

/-! ## Properties of the introspection helpers -/

/-- C17: IsKindTypeElemable holds exactly for array, channel, map, pointer and
slice, IsKindValueElemable exactly for pointer and interface; hence pointer is
the only kind with both, and interface is value-elemable but not
type-elemable. -/
theorem kind_elemable (k : Kind) :
    (IsKindTypeElemable k = true ↔
      k = .Array ∨ k = .Chan ∨ k = .Map ∨ k = .Ptr ∨ k = .Slice) ∧
    (IsKindValueElemable k = true ↔ k = .Ptr ∨ k = .Interface) ∧
    ((IsKindTypeElemable k = true ∧ IsKindValueElemable k = true) ↔ k = .Ptr) ∧
    IsKindValueElemable .Interface = true ∧ IsKindTypeElemable .Interface = false := by
  cases k <;> simp [IsKindTypeElemable, IsKindValueElemable]

theorem isTypeElemable_iff_layers (t : Typ) :
    IsTypeElemable (some t) = false ↔ layers t = 0 := by
  cases t with
  | basic b =>
    cases b <;>
      simp [IsTypeElemable, Types.IsTypeElemable, treeTypes, IsKindTypeElemable, Typ.Kind,
        Basic.Kind, layers]
  | _ =>
    simp [IsTypeElemable, Types.IsTypeElemable, treeTypes, IsKindTypeElemable, Typ.Kind, layers]

/-- The loop of `GetChildElemType` ends within `layers t + 1` evaluations of its
condition, on a type that has no element type and is reached by element-type
steps; the type it ends on does not depend on the bound. -/
theorem childElemLoop_spec :
    ∀ (n : Nat) (t : Typ), layers t = n →
      ∃ t2, (∀ rounds, n < rounds → treeTypes.childElemLoop rounds t = some (.ok t2)) ∧
        IsTypeElemable (some t2) = false ∧
        Relation.ReflTransGen (fun a b => Typ.Elem a = .ok b) t t2 := by
  intro n
  induction n with
  | zero =>
    intro t ht
    have hne := (isTypeElemable_iff_layers t).mpr ht
    refine ⟨t, ?_, hne, Relation.ReflTransGen.refl⟩
    intro rounds hr
    obtain ⟨r, rfl⟩ : ∃ r, rounds = r + 1 := ⟨rounds - 1, by omega⟩
    have hne2 : treeTypes.IsTypeElemable (some t) = false := hne
    simp [Types.childElemLoop, hne2]
  | succ n ih =>
    intro t ht
    have step : ∀ e, Typ.Elem t = .ok e → layers e = n → IsTypeElemable (some t) = true →
        ∃ t2, (∀ rounds, n + 1 < rounds →
            treeTypes.childElemLoop rounds t = some (.ok t2)) ∧
          IsTypeElemable (some t2) = false ∧
          Relation.ReflTransGen (fun a b => Typ.Elem a = .ok b) t t2 := by
      intro e he hl hel
      obtain ⟨t2, h1, h2, h3⟩ := ih e hl
      refine ⟨t2, ?_, h2, Relation.ReflTransGen.head he h3⟩
      intro rounds hr
      obtain ⟨r, rfl⟩ : ∃ r, rounds = r + 1 := ⟨rounds - 1, by omega⟩
      have hel2 : treeTypes.IsTypeElemable (some t) = true := hel
      have he2 : treeTypes.Elem t = .ok e := he
      simp only [Types.childElemLoop, hel2, if_true, he2]
      exact h1 r (by omega)
    cases t with
    | array k e =>
      exact step e rfl (by simpa [layers] using ht)
        (by simp [IsTypeElemable, Types.IsTypeElemable, treeTypes, IsKindTypeElemable,
          Typ.Kind])
    | chan e =>
      exact step e rfl (by simpa [layers] using ht)
        (by simp [IsTypeElemable, Types.IsTypeElemable, treeTypes, IsKindTypeElemable,
          Typ.Kind])
    | map k e =>
      exact step e rfl (by simpa [layers] using ht)
        (by simp [IsTypeElemable, Types.IsTypeElemable, treeTypes, IsKindTypeElemable,
          Typ.Kind])
    | ptr e =>
      exact step e rfl (by simpa [layers] using ht)
        (by simp [IsTypeElemable, Types.IsTypeElemable, treeTypes, IsKindTypeElemable,
          Typ.Kind])
    | slice e =>
      exact step e rfl (by simpa [layers] using ht)
        (by simp [IsTypeElemable, Types.IsTypeElemable, treeTypes, IsKindTypeElemable,
          Typ.Kind])
    | _ => simp [layers] at ht

/-- On a valid value whose type is the finite tree `t0`, GetChildElemType
terminates (every bound above the number of element layers of `t0` gives the
same result) and returns a type reached from `t0` by finitely many element-type
steps on which IsTypeElemable is false; on a value of that type it returns the
type again. -/
theorem GetChildElemType_terminal (val : reflect.Value) (t0 : Typ) (h : val.typ = some t0) :
    ∃ t, (∀ rounds, layers t0 < rounds →
        GetChildElemType rounds val = some (.ok (some t))) ∧
      IsTypeElemable (some t) = false ∧
      Relation.ReflTransGen (fun a b => Typ.Elem a = .ok b) t0 t ∧
      (∀ (v2 : reflect.Value) (rounds : Nat), v2.typ = some t → 0 < rounds →
        GetChildElemType rounds v2 = some (.ok (some t))) := by
  obtain ⟨t, h1, h2, h3⟩ := childElemLoop_spec (layers t0) t0 rfl
  refine ⟨t, ?_, h2, h3, ?_⟩
  · intro rounds hr
    simp [GetChildElemType, Types.GetChildElemType, reflect.Value.IsValid, reflect.Value.Type,
      h, h1 rounds hr]
  · intro v2 rounds hv hr
    obtain ⟨r, rfl⟩ : ∃ r, rounds = r + 1 := ⟨rounds - 1, by omega⟩
    have h22 : treeTypes.IsTypeElemable (some t) = false := h2
    simp [GetChildElemType, Types.GetChildElemType, reflect.Value.IsValid, reflect.Value.Type,
      hv, Types.childElemLoop, h22]

/-- On a type that is its own element type the loop of `GetChildElemType`
never ends: the bound is hit whatever it is. -/
theorem childElemLoop_selfElem (k : Kind) (hk : IsKindTypeElemable k = true) :
    ∀ rounds, (selfElem k).childElemLoop rounds () = none := by
  intro rounds
  induction rounds with
  | zero => rfl
  | succ n ih =>
    have hel : (selfElem k).IsTypeElemable (some ()) = true := hk
    have he : (selfElem k).Elem () = .ok () := rfl
    simp only [Types.childElemLoop, hel, if_true, he]
    exact ih

/-- C16 at a valid value of the named type `type T []T`, and at one of
`type Tree map[string]Tree`: the type is elemable and its element type is the
type itself, so the loop `for IsTypeElemable(typ) { typ = typ.Elem() }` has not
ended after any number of rounds, and GetChildElemType does not return. -/
theorem GetChildElemType_self_element :
    (∀ rounds, (selfElem .Slice).GetChildElemType rounds ⟨true, .ok ()⟩ = none) ∧
    (∀ rounds, (selfElem .Map).GetChildElemType rounds ⟨true, .ok ()⟩ = none) ∧
    (selfElem .Slice).IsTypeElemable (some ()) = true ∧
    (selfElem .Slice).Elem () = .ok () := by
  refine ⟨fun rounds => ?_, fun rounds => ?_, rfl, rfl⟩
  · simp [Types.GetChildElemType, childElemLoop_selfElem .Slice rfl rounds]
  · simp [Types.GetChildElemType, childElemLoop_selfElem .Map rfl rounds]

/-- GetChildElemKind takes one element-type step and stops: on a valid value
it is the kind of the element type when the kind is type-elemable, and the
Invalid kind otherwise. -/
theorem GetChildElemKind_one_step (val : reflect.Value) (t : Typ) (h : val.typ = some t) :
    (IsKindTypeElemable t.Kind = true → ∃ e, t.Elem = .ok e ∧
      GetChildElemKind val = .ok e.Kind) ∧
    (IsKindTypeElemable t.Kind = false → GetChildElemKind val = .ok .Invalid) := by
  have hk : val.Kind = t.Kind := by simp [reflect.Value.Kind, h]
  constructor
  · intro he
    have hex : ∃ e, t.Elem = .ok e := by
      cases t with
      | basic b => cases b <;> simp [IsKindTypeElemable, Typ.Kind, Basic.Kind] at he
      | array n e => exact ⟨e, rfl⟩
      | chan e => exact ⟨e, rfl⟩
      | map k e => exact ⟨e, rfl⟩
      | ptr e => exact ⟨e, rfl⟩
      | slice e => exact ⟨e, rfl⟩
      | _ => simp [IsKindTypeElemable, Typ.Kind] at he
    obtain ⟨e, hel⟩ := hex
    exact ⟨e, hel, by
      simp [GetChildElemKind, reflect.Value.IsValid, h, GetKind_eq, hk, he,
        reflect.Value.Type, hel]⟩
  · intro he
    simp [GetChildElemKind, reflect.Value.IsValid, h, GetKind_eq, hk, he]

/-- C19 at concrete inputs: for a slice of slices of int, GetChildElemKind is
Slice while the type GetChildElemType ends on is int; for an int value it is
Invalid while GetChildElemType gives int.  Only the invalid handle agrees. -/
theorem GetChildElemKind_not_root :
    GetChildElemKind ⟨some (.slice (.slice (.basic .Int))), .seq [], false⟩ = .ok .Slice ∧
    GetChildElemType 3 ⟨some (.slice (.slice (.basic .Int))), .seq [], false⟩ =
      some (.ok (some (.basic .Int))) ∧
    GetChildElemKind ⟨some (.basic .Int), .int 5, false⟩ = .ok .Invalid ∧
    GetChildElemType 1 ⟨some (.basic .Int), .int 5, false⟩ = some (.ok (some (.basic .Int))) ∧
    GetChildElemKind reflect.Value.zeroValue = .ok .Invalid :=
  ⟨rfl, rfl, rfl, rfl, rfl⟩

/-- C15, as stated, fails: for an int slice GetElemType is int, not the slice
type, although a slice is not value-elemable; for a value of interface kind,
which is value-elemable, it is the interface type itself. -/
theorem GetElemType_slice_and_interface :
    GetElemType ⟨some (.slice (.basic .Int)), .seq [], false⟩ = .ok (some (.basic .Int)) ∧
    IsKindValueElemable (GetKind ⟨some (.slice (.basic .Int)), .seq [], false⟩) = false ∧
    GetElemType ⟨some .iface, .iface (.basic .Int) (.int 1), false⟩ = .ok (some .iface) ∧
    IsKindValueElemable (GetKind ⟨some .iface, .iface (.basic .Int) (.int 1), false⟩) = true :=
  ⟨rfl, rfl, rfl, rfl⟩

/-- C15, amended: for a valid value v of type t, GetElemType(v) is the element
type of t if v's kind is type-elemable (array, channel, map, pointer or slice,
i.e. IsKindTypeElemable holds), and is t itself for every other kind
(interface included). -/
theorem GetElemType_type_elemable (val : reflect.Value) (t : Typ) (h : val.typ = some t) :
    (IsKindTypeElemable (GetKind val) = true →
      ∃ e, t.Elem = .ok e ∧ GetElemType val = .ok (some e)) ∧
    (IsKindTypeElemable (GetKind val) = false → GetElemType val = .ok (some t)) := by
  have hk : val.Kind = t.Kind := by simp [reflect.Value.Kind, h]
  rw [GetKind_eq, hk]
  constructor
  · intro he
    have hex : ∃ e, t.Elem = .ok e := by
      cases t with
      | basic b => cases b <;> simp [IsKindTypeElemable, Typ.Kind, Basic.Kind] at he
      | array n e => exact ⟨e, rfl⟩
      | chan e => exact ⟨e, rfl⟩
      | map k e => exact ⟨e, rfl⟩
      | ptr e => exact ⟨e, rfl⟩
      | slice e => exact ⟨e, rfl⟩
      | _ => simp [IsKindTypeElemable, Typ.Kind] at he
    obtain ⟨e, hel⟩ := hex
    exact ⟨e, hel, by
      simp [GetElemType, reflect.Value.IsValid, h, IsTypeValueElemable, GetKind_eq, hk, he,
        reflect.Value.Type, hel]⟩
  · intro he
    simp [GetElemType, reflect.Value.IsValid, h, IsTypeValueElemable, GetKind_eq, hk, he,
      reflect.Value.Type]

/-- C15 amended, at a concrete input: a map from string to int. -/
theorem GetElemType_type_elemable_witness :
    (IsKindTypeElemable
        (GetKind ⟨some (.map (.basic .String) (.basic .Int)), .nil, false⟩) = true →
      ∃ e, (Typ.map (.basic .String) (.basic .Int)).Elem = .ok e ∧
        GetElemType ⟨some (.map (.basic .String) (.basic .Int)), .nil, false⟩ =
          .ok (some e)) ∧
    (IsKindTypeElemable
        (GetKind ⟨some (.map (.basic .String) (.basic .Int)), .nil, false⟩) = false →
      GetElemType ⟨some (.map (.basic .String) (.basic .Int)), .nil, false⟩ =
        .ok (some (.map (.basic .String) (.basic .Int)))) :=
  GetElemType_type_elemable ⟨some (.map (.basic .String) (.basic .Int)), .nil, false⟩
    (.map (.basic .String) (.basic .Int)) rfl

/-! ## Properties of the structural iteration facility -/

/-- C14 at the input of the test "valid slice value" of TestCast: for the int
slice [1,2,3] the wrapper built by CastStruct is the zero wrapper, whose value
and recorded kind are Invalid, although the kind of the slice after unwrapping
is Slice. -/
theorem CastStruct_slice_invalid :
    GetKind (CastStruct ⟨some (.slice (.basic .Int)), .seq [.int 1, .int 2, .int 3],
      false⟩).Value = .Invalid ∧
    (CastStruct ⟨some (.slice (.basic .Int)), .seq [.int 1, .int 2, .int 3], false⟩).kind =
      .Invalid ∧
    GetKind (GetChildElem ⟨some (.slice (.basic .Int)), .seq [.int 1, .int 2, .int 3],
      false⟩) = .Slice :=
  ⟨rfl, rfl, rfl⟩

/-- What CastStruct builds: when v is a struct after the unwrap, the wrapper
holds that struct and records the Struct kind; for every other v (a nil handle,
a slice, ...) it is the zero wrapper, whose value is invalid and whose recorded
kind is Invalid.  In both cases the recorded kind is the kind of the value
held. -/
theorem CastStruct_kind (val : reflect.Value) :
    (GetKind (GetChildElem val) = .Struct →
      CastStruct val = ⟨GetChildElem val, .Struct, none⟩) ∧
    (GetKind (GetChildElem val) ≠ .Struct →
      CastStruct val = ⟨reflect.Value.zeroValue, .Invalid, none⟩) ∧
    GetKind (CastStruct val).Value = (CastStruct val).kind := by
  by_cases h : GetKind (GetChildElem val) = .Struct
  · have hc : CastStruct val = ⟨GetChildElem val, .Struct, none⟩ := by
      simp [CastStruct, IsKindStruct, h]
    refine ⟨fun _ => hc, fun hn => absurd h hn, ?_⟩
    rw [hc]
    exact h
  · have hc : CastStruct val = ⟨reflect.Value.zeroValue, .Invalid, none⟩ := by
      simp [CastStruct, IsKindStruct, h]
    refine ⟨fun hp => absurd hp h, fun _ => hc, ?_⟩
    rw [hc]
    rfl

/-- C12: on a wrapper whose recorded kind is not Struct, IterateStruct,
IterateStructError and IterateStructPanic call no callback (the caller's state
comes back as it went in) and return the same wrapper, value, kind and error
slot unchanged; and Error() is nil on every wrapper CastStruct builds. -/
theorem iterate_not_struct {σ : Type} (s : reflecthelper.Value) (hk : s.kind ≠ .Struct)
    (fns : List (IterateStructFunc σ)) (fnsErr : List (IterateStructErrorFunc σ)) (st : σ) :
    s.IterateStruct fns st = .ok (s, st) ∧
    s.IterateStructError fnsErr st = .ok (s, st) ∧
    s.IterateStructPanic fns st = ⟨some s, s, st⟩ ∧
    (∀ val : reflect.Value, (CastStruct val).Error = none) := by
  have hs : s.isStruct = false := by
    simp [reflecthelper.Value.isStruct, IsKindStruct, hk]
  refine ⟨?_, ?_, ?_, ?_⟩
  · simp [reflecthelper.Value.IterateStruct, hs]
  · simp [reflecthelper.Value.IterateStructError, hs]
  · simp [reflecthelper.Value.IterateStructPanic, hs, RecoverFn]
  · intro val
    unfold CastStruct reflecthelper.Value.Error
    simp only
    split <;> rfl

/-- C12 at a concrete input: the wrapper built from an int, with a callback
that would count its calls. -/
theorem iterate_not_struct_witness :
    (CastStruct ⟨some (.basic .Int), .int 0, false⟩).IterateStruct
        [fun _ _ (n : Nat) => .ok (n + 1)] 0 =
      .ok (CastStruct ⟨some (.basic .Int), .int 0, false⟩, 0) ∧
    (CastStruct ⟨some (.basic .Int), .int 0, false⟩).IterateStructError
        [fun _ _ (n : Nat) => .ok (some .ErrOverflow, n + 1)] 0 =
      .ok (CastStruct ⟨some (.basic .Int), .int 0, false⟩, 0) ∧
    (CastStruct ⟨some (.basic .Int), .int 0, false⟩).IterateStructPanic
        [fun _ _ (n : Nat) => .ok (n + 1)] 0 =
      ⟨some (CastStruct ⟨some (.basic .Int), .int 0, false⟩),
        CastStruct ⟨some (.basic .Int), .int 0, false⟩, 0⟩ ∧
    (∀ val : reflect.Value, (CastStruct val).Error = none) :=
  iterate_not_struct (CastStruct ⟨some (.basic .Int), .int 0, false⟩) (by decide)
    [fun _ _ (n : Nat) => .ok (n + 1)] [fun _ _ (n : Nat) => .ok (some .ErrOverflow, n + 1)] 0

/-- C11 at the input of the test "error in the iteration": a wrapper over a
struct with one field and a callback that returns an error on every field.
After `IterateStructError` the callback has not been called (its counter is 0)
and Error() is nil: the loop over the fields has no body. -/
theorem IterateStructError_no_error :
    (CastStruct ⟨some (.struct [.basic .String]), .struct [.str [72, 105, 33]],
        false⟩).IterateStructError
        [fun _ _ (n : Nat) => .ok (some (.Extraction 1), n + 1)] 0 =
      .ok (CastStruct ⟨some (.struct [.basic .String]), .struct [.str [72, 105, 33]],
        false⟩, 0) ∧
    (CastStruct ⟨some (.struct [.basic .String]), .struct [.str [72, 105, 33]],
      false⟩).Error = none :=
  ⟨rfl, rfl⟩

/-- C13 at the input of the test "panic with recoverer": a wrapper over a
struct with one field and a callback that panics with an error value.  After
`IterateStructPanic` the callback has not been called, nothing was recovered and
Error() is nil, not the payload. -/
theorem IterateStructPanic_no_error :
    ((CastStruct ⟨some (.struct [.basic .String]), .struct [.str [72, 105, 33]],
        false⟩).IterateStructPanic
        [fun _ _ (_ : Nat) => .error (.runtimeError "test")] 0).s.Error = none ∧
    ((CastStruct ⟨some (.struct [.basic .String]), .struct [.str [72, 105, 33]],
        false⟩).IterateStructPanic
        [fun _ _ (_ : Nat) => .error (.text "hello")] 0).s.Error = none :=
  ⟨rfl, rfl⟩

/-! ## Sources of another kind than the destination -/

/-- C20: for a settable byte-sequence destination (a slice, or an array, of
uint8) holding the L elements `old` and a string source with more than L bytes,
AssignReflect returns no error, the destination afterwards holds the first L
bytes of the string, and its length is still L. -/
theorem AssignReflect_string_truncated (env : Env) (depth : Nat)
    (assigner val : reflect.Value) (old : List Data) (bs : List Nat)
    (hset : (GetChildElem assigner).CanSet = true)
    (ht : (GetChildElem assigner).typ = some (.slice (.basic .Uint8)) ∨
      (GetChildElem assigner).typ = some (.array old.length (.basic .Uint8)))
    (hold : (GetChildElem assigner).data = .seq old)
    (hsrc : (GetChildElem val).typ = some (.basic .String))
    (hbs : (GetChildElem val).data = .str bs)
    (hlen : old.length < bs.length) :
    AssignReflect env (depth + 1) assigner val =
      some ⟨none, .seq ((bs.take old.length).map Data.uint)⟩ ∧
    ((bs.take old.length).map Data.uint).length = old.length := by
  have hcan : (GetChildElem assigner).canSet = true := hset
  have hvk : (GetChildElem val).Kind = .String := by
    simp [reflect.Value.Kind, hsrc, Typ.Kind, Basic.Kind]
  have hmin : min old.length bs.length = old.length := Nat.min_eq_left (Nat.le_of_lt hlen)
  refine ⟨?_, by simp [hmin]⟩
  rcases ht with ht | ht
  · have hak : (GetChildElem assigner).Kind = .Slice := by
      simp [reflect.Value.Kind, ht, Typ.Kind]
    rw [AssignReflect_eq_tryAssign env depth assigner val (isValid_of_typ ht) hset
      (isValid_of_typ hsrc)]
    unfold tryAssign
    rw [tryAssignBody_string_source env _ _ _ (Or.inr hak) hvk]
    simp [iterateAndAssignString, GetElemKind, reflect.Value.IsValid, GetKind_eq, hak,
      IsKindTypeElemable, reflect.Value.Type, ht, Typ.Elem, Typ.Kind, Basic.Kind, Copy,
      copyFrom, hsrc, hbs, copyElems, reflect.Value.elems, hold, Flow.ofSet, hmin,
      List.map_take]
  · have hak : (GetChildElem assigner).Kind = .Array := by
      simp [reflect.Value.Kind, ht, Typ.Kind]
    rw [AssignReflect_eq_tryAssign env depth assigner val (isValid_of_typ ht) hset
      (isValid_of_typ hsrc)]
    unfold tryAssign
    rw [tryAssignBody_string_source env _ _ _ (Or.inl hak) hvk]
    simp [iterateAndAssignString, GetElemKind, reflect.Value.IsValid, GetKind_eq, hak,
      IsKindTypeElemable, reflect.Value.Type, ht, Typ.Elem, Typ.Kind, Basic.Kind, Copy,
      copyFrom, hsrc, hbs, copyElems, reflect.Value.elems, hold, Flow.ofSet, hcan, hmin,
      List.map_take]

/-- C20 at a concrete input: a [2]byte array holding [1,2] and the string
"hello". -/
theorem AssignReflect_string_truncated_witness :
    AssignReflect env64 1 ⟨some (.array 2 (.basic .Uint8)), .seq [.uint 1, .uint 2], true⟩
        ⟨some (.basic .String), .str [104, 101, 108, 108, 111], false⟩ =
      some ⟨none, .seq (([104, 101, 108, 108, 111].take
        [Data.uint 1, Data.uint 2].length).map Data.uint)⟩ ∧
    (([104, 101, 108, 108, 111].take [Data.uint 1, Data.uint 2].length).map Data.uint).length =
      [Data.uint 1, Data.uint 2].length :=
  AssignReflect_string_truncated env64 0
    ⟨some (.array 2 (.basic .Uint8)), .seq [.uint 1, .uint 2], true⟩
    ⟨some (.basic .String), .str [104, 101, 108, 108, 111], false⟩
    [.uint 1, .uint 2] [104, 101, 108, 108, 111]
    rfl (Or.inr rfl) rfl rfl rfl (by decide)

theorem keeps_ofSet (a : reflect.Value) (r : Except Panic reflect.Value) :
    (Flow.ofSet a r).keeps a := by
  cases r <;> simp [Flow.ofSet, Flow.keeps]

theorem keeps_iterateAndAssign (rec : Callee) (a val : reflect.Value) (isSlice : Bool)
    (fl : Flow) (h : iterateAndAssign rec a val isSlice = some fl) : fl.keeps a := by
  unfold iterateAndAssign at h
  split at h
  · simp at h
  · simp only [Option.some.injEq] at h
    subst h
    simp [Flow.keeps]
  · simp only [Option.some.injEq] at h
    subst h
    simp [Flow.keeps]
  · simp only [Option.some.injEq] at h
    subst h
    exact keeps_ofSet a _

theorem keeps_iterateAndAssignString (a val : reflect.Value) :
    (iterateAndAssignString a val).keeps a := by
  unfold iterateAndAssignString
  split
  · simp [Flow.keeps]
  · exact keeps_ofSet a _
  · simp [Flow.keeps]
  · simp [Flow.keeps]

/-- Every way the body of `tryAssign` ends other than a return without error
carries the destination handle as it was at entry. -/
theorem tryAssignBody_keeps (env : Env) (rec : Callee) (a val : reflect.Value) (fl : Flow)
    (h : tryAssignBody env rec a val = some fl) : fl.keeps a := by
  revert h
  unfold tryAssignBody
  simp only [GetKind_eq]
  split
  all_goals repeat' split
  all_goals intro h
  all_goals first
    | exact keeps_iterateAndAssign rec a val _ fl h
    | (simp only [Option.some.injEq] at h
       subst h
       first
         | exact keeps_ofSet a _
         | exact keeps_iterateAndAssignString a val
         | simp [Flow.keeps])

/-- Whenever AssignReflect returns an error, the destination holds the value it
held before the call. -/
theorem AssignReflect_error_keeps (env : Env) (depth : Nat) (assigner val : reflect.Value)
    (out : Outcome) (h : AssignReflect env (depth + 1) assigner val = some out)
    (herr : out.err ≠ none) : out.dst = (GetChildElem assigner).data := by
  simp only [AssignReflect, assignReflectBody] at h
  split at h
  · simp only [Option.some.injEq] at h
    subst h
    rfl
  · split at h
    · simp only [Option.some.injEq] at h
      subst h
      rfl
    · unfold tryAssign at h
      split at h
      · simp at h
      · rename_i err a2 hb
        have hk := tryAssignBody_keeps env _ _ _ _ hb
        simp only [Option.some.injEq] at h
        subst h
        cases err with
        | none => exact absurd rfl herr
        | some e =>
          simp only [Flow.keeps] at hk
          rw [hk]
      · rename_i p a2 hb
        have hk := tryAssignBody_keeps env _ _ _ _ hb
        simp only [Option.some.injEq] at h
        subst h
        simp only [Flow.keeps] at hk
        rw [hk]

theorem tryAssign_seq_unimplemented (env : Env) (rec : Callee) (a val : reflect.Value)
    (ha : a.Kind = .Array ∨ a.Kind = .Slice) (h1 : val.Kind ≠ .Array)
    (h2 : val.Kind ≠ .Slice) (h3 : val.Kind ≠ .String) :
    tryAssign env rec a val = some ⟨some .ErrUnimplementedAssign, a.data⟩ := by
  unfold tryAssign tryAssignBody
  simp only [GetKind_eq]
  rcases ha with ha | ha <;> cases hv : val.Kind <;>
    simp_all [getErrUnimplementedAssign]

/-- C18 at a concrete input: a settable [2]int array holding [7,8] is given the
empty int slice.  The kinds (Array, Slice) differ, yet AssignReflect returns no
error and the destination becomes [0,0]: nothing compares the two kinds. -/
theorem AssignReflect_array_from_slice :
    AssignReflect env64 1 ⟨some (.array 2 (.basic .Int)), .seq [.int 7, .int 8], true⟩
        ⟨some (.slice (.basic .Int)), .seq [], false⟩ =
      some ⟨none, .seq [.int 0, .int 0]⟩ ∧
    GetKind (GetChildElem ⟨some (.array 2 (.basic .Int)), .seq [.int 7, .int 8], true⟩) =
      .Array ∧
    GetKind (GetChildElem ⟨some (.slice (.basic .Int)), .seq [], false⟩) = .Slice :=
  ⟨rfl, rfl, rfl⟩

/-- What the code does with the two kinds: it dispatches on the kind of the
destination.  For a valid settable array or slice destination and a valid source
whose kind is none of array, slice and string it returns the UnimplementedAssign
error; and whenever it returns an error, for whatever kinds, the destination is
left unchanged. -/
theorem AssignReflect_kind_dispatch (env : Env) (depth : Nat) (assigner val : reflect.Value)
    (hvalid : (GetChildElem assigner).IsValid = true)
    (hset : (GetChildElem assigner).CanSet = true)
    (hsrc : (GetChildElem val).IsValid = true) :
    ((GetKind (GetChildElem assigner) = .Array ∨ GetKind (GetChildElem assigner) = .Slice) →
      GetKind (GetChildElem val) ≠ .Array → GetKind (GetChildElem val) ≠ .Slice →
      GetKind (GetChildElem val) ≠ .String →
      AssignReflect env (depth + 1) assigner val =
        some ⟨some .ErrUnimplementedAssign, (GetChildElem assigner).data⟩) ∧
    (∀ out, AssignReflect env (depth + 1) assigner val = some out → out.err ≠ none →
      out.dst = (GetChildElem assigner).data) := by
  refine ⟨?_, fun out h herr => AssignReflect_error_keeps env depth assigner val out h herr⟩
  intro ha h1 h2 h3
  simp only [GetKind_eq] at ha h1 h2 h3
  rw [AssignReflect_eq_tryAssign env depth assigner val hvalid hset hsrc]
  exact tryAssign_seq_unimplemented env _ _ _ ha h1 h2 h3

end reflecthelper
